import Mathlib

/-!
Network parameter registry (package `chaincfg`, `params.go`)

A shallow embedding of the registry of `params.go`: the five package-level maps
(`registeredNets`, `pubKeyHashAddrIDs`, `scriptHashAddrIDs`, `bech32SegwitPrefixes`,
`hdPrivToPubKeyIDs`), the mutator `Register` and the four queries
`IsPubKeyHashAddrID`, `IsScriptHashAddrID`, `IsBech32SegwitPrefix`,
`HDPrivateKeyToPublicKeyID`.

Modelling conventions.
* The package-level maps are the fields of an explicit state record `Registry`;
  a function that writes them takes the state and returns the new one.
* A Go `map[K]struct{}` is a `Finset K`; `map[[4]byte][]byte` is a finite map
  (`Finmap`) from 4-byte arrays to byte slices.
* A Go `error` result is an `Option Error` (`none` is `nil`).
* A `[]byte` is a `List Byte`; the `nil` slice is `[]`.
* In `Registry` a slice stored in the map is represented by its contents at the
  time of the call.  That the slice shares its backing array with the caller's
  `Params` is kept by the second state type `World`, which carries the caller's
  memory; `Views` relates the two, and they agree while memory is not written.
  Runs over `World` (`runShared`) interleave calls of `Register` with writes of
  the caller.
* Where a property concerns `strings.ToLower` on arbitrary strings, the library
  function is a parameter (`IsBech32SegwitPrefixOf`); `ToLower` is its ASCII part.
* A panic is a result: `mustRegister` and `init` return the panic value (if any)
  together with the maps as they are at that point.
-/

namespace chaincfg

/-- Go `byte`. -/
abbrev Byte := Fin 256

/-- The type `wire.BitcoinNet`, a `uint32` network magic. -/
abbrev BitcoinNet := Fin 4294967296

/-- Go `[4]byte`. -/
abbrev Bytes4 := { l : List Byte // l.length = 4 }

/-- The two error values of the package. -/
inductive Error where
  | ErrDuplicateNet
  | ErrUnknownHDKeyID
  deriving DecidableEq, Repr

/-- The message carried by each error value (`errors.New(...)`). -/
def Error.text : Error → String
  | .ErrDuplicateNet => "duplicate Litecoin network"
  | .ErrUnknownHDKeyID => "unknown hd private extended key bytes"

/-- The fields of `Params` that are plain data (names, magics, numeric consensus
constants).  Pointers to genesis blocks, seeds, checkpoints, deployments and
durations are left out: no function of the registry reads them. -/
structure Params where
  Name : String
  Net : BitcoinNet
  DefaultPort : String
  PowLimit : Nat
  PowLimitBits : Nat
  RuleChangeActivationThreshold : Nat
  MinerConfirmationWindow : Nat
  Bech32HRPSegwit : String
  PubKeyHashAddrID : Byte
  ScriptHashAddrID : Byte
  PrivateKeyID : Byte
  WitnessPubKeyHashAddrID : Byte
  WitnessScriptHashAddrID : Byte
  HDPrivateKeyID : Bytes4
  HDPublicKeyID : Bytes4
  HDCoinType : Nat
  CharityPubKey : String

/-- The five package-level index maps. -/
structure Registry where
  registeredNets : Finset BitcoinNet
  pubKeyHashAddrIDs : Finset Byte
  scriptHashAddrIDs : Finset Byte
  bech32SegwitPrefixes : Finset String
  hdPrivToPubKeyIDs : Finmap (fun _ : Bytes4 => List Byte)

/-- The state right after the `var (...)` block: five maps made by `make`. -/
def Registry.empty : Registry :=
  { registeredNets := ∅
    pubKeyHashAddrIDs := ∅
    scriptHashAddrIDs := ∅
    bech32SegwitPrefixes := ∅
    hdPrivToPubKeyIDs := ∅ }

/-- Function `Register`: refuse a network whose `Net` is registered already, otherwise
write the five maps in the order of the source. -/
def Register (s : Registry) (params : Params) : Option Error × Registry :=
  if params.Net ∈ s.registeredNets then
    (some Error.ErrDuplicateNet, s)
  else
    (none,
      { registeredNets := insert params.Net s.registeredNets
        pubKeyHashAddrIDs := insert params.PubKeyHashAddrID s.pubKeyHashAddrIDs
        scriptHashAddrIDs := insert params.ScriptHashAddrID s.scriptHashAddrIDs
        hdPrivToPubKeyIDs :=
          Finmap.insert params.HDPrivateKeyID params.HDPublicKeyID.val s.hdPrivToPubKeyIDs
        bech32SegwitPrefixes := insert (params.Bech32HRPSegwit ++ "1") s.bech32SegwitPrefixes })

/-- Function `IsPubKeyHashAddrID`: presence of the byte in `pubKeyHashAddrIDs`. -/
def IsPubKeyHashAddrID (s : Registry) (id : Byte) : Bool :=
  decide (id ∈ s.pubKeyHashAddrIDs)

/-- Function `IsScriptHashAddrID`: presence of the byte in `scriptHashAddrIDs`. -/
def IsScriptHashAddrID (s : Registry) (id : Byte) : Bool :=
  decide (id ∈ s.scriptHashAddrIDs)

/-- One byte of `strings.ToLower` on an ASCII string: `'A'..'Z'` move to
`'a'..'z'`, every other character stays. -/
def toLowerChar (c : Char) : Char :=
  if 'A'.toNat ≤ c.toNat ∧ c.toNat ≤ 'Z'.toNat then Char.ofNat (c.toNat + 32) else c

/-- Go `strings.ToLower` on ASCII strings (the standard library lower-cases
other letters too; the model is the library function only on ASCII input). -/
def ToLower (s : String) : String :=
  ⟨s.data.map toLowerChar⟩

/-- Function `IsBech32SegwitPrefix`: lower-case the argument, then test presence in
`bech32SegwitPrefixes`. -/
def IsBech32SegwitPrefix (s : Registry) (pfx : String) : Bool :=
  let lowered := ToLower pfx
  decide (lowered ∈ s.bech32SegwitPrefixes)

/-- Function `HDPrivateKeyToPublicKeyID`: an id that is not 4 bytes long, or whose 4 bytes
are no key of `hdPrivToPubKeyIDs`, yields `(nil, ErrUnknownHDKeyID)`. -/
def HDPrivateKeyToPublicKeyID (s : Registry) (id : List Byte) : List Byte × Option Error :=
  if h : id.length ≠ 4 then
    ([], some Error.ErrUnknownHDKeyID)
  else
    let key : Bytes4 := ⟨id, not_not.mp h⟩
    match s.hdPrivToPubKeyIDs.lookup key with
    | none => ([], some Error.ErrUnknownHDKeyID)
    | some pubBytes => (pubBytes, none)

/-- Function `mustRegister`: `Register`, with an error turned into a panic.  The
first component is the panic value (`none` when the call returns normally), the
second the maps as the call leaves them. -/
def mustRegister (s : Registry) (params : Params) : Option String × Registry :=
  match Register s params with
  | (some err, s') => (some ("failed to register network: " ++ err.text), s')
  | (none, s') => (none, s')

/-- A run of `Register` over a list of parameter sets, in order: the result of
every call, paired with its argument, and the final state. -/
def registerAll : Registry → List Params → List (Params × Option Error) × Registry
  | s, [] => ([], s)
  | s, p :: ps =>
    let r := Register s p
    let rest := registerAll r.2 ps
    ((p, r.1) :: rest.1, rest.2)

/-- Whether every character of a string is ASCII (below `utf8.RuneSelf`), the
inputs on which `ToLower` is the library function. -/
def isASCII (s : String) : Bool :=
  s.data.all (fun c => decide (c.toNat < 128))

/-- A sample parameter set: only the indexed fields vary. -/
def sampleParams (net : BitcoinNet) (hrp : String) (pk sh : Byte) (priv pub : Bytes4) : Params :=
  { Name := "sample"
    Net := net
    DefaultPort := "0"
    PowLimit := 0
    PowLimitBits := 0
    RuleChangeActivationThreshold := 0
    MinerConfirmationWindow := 0
    Bech32HRPSegwit := hrp
    PubKeyHashAddrID := pk
    ScriptHashAddrID := sh
    PrivateKeyID := 0xEF
    WitnessPubKeyHashAddrID := 0x06
    WitnessScriptHashAddrID := 0x0A
    HDPrivateKeyID := priv
    HDPublicKeyID := pub
    HDCoinType := 0
    CharityPubKey := "" }

/-- HD private id of the main network (`xprv`). -/
def xprv : Bytes4 := ⟨[0x04, 0x88, 0xad, 0xe4], rfl⟩
/-- HD public id of the main network (`xpub`). -/
def xpub : Bytes4 := ⟨[0x04, 0x88, 0xb2, 0x1e], rfl⟩
/-- HD private id of the two test networks (`tprv`). -/
def tprv : Bytes4 := ⟨[0x04, 0x35, 0x83, 0x94], rfl⟩
/-- HD public id of the two test networks (`tpub`). -/
def tpub : Bytes4 := ⟨[0x04, 0x35, 0x87, 0xcf], rfl⟩

/-- HD private id of the simulation network (`sprv`). -/
def sprv : Bytes4 := ⟨[0x04, 0x20, 0xb9, 0x00], rfl⟩
/-- HD public id of the simulation network (`spub`). -/
def spub : Bytes4 := ⟨[0x04, 0x20, 0xbd, 0x3a], rfl⟩

/-- The four constants of package `wire` that name the default networks.  The
package is not part of this repository, so the constants are parameters. -/
structure WireNets where
  MainNet : BitcoinNet
  TestNet : BitcoinNet
  TestNet4 : BitcoinNet
  SimNet : BitcoinNet

/-- Value of `mainPowLimit` and of `testNet4PowLimit` (the same hex literal). -/
def mainPowLimit : Nat :=
  0x00000fffffffffffffffffffffffffffffffffffffffffffffffffffffffffff

/-- Value of `regressionPowLimit`. -/
def regressionPowLimit : Nat :=
  0x7fffffffffffffffffffffffffffffffffffffffffffffffffffffffffffffff

/-- Value of `testNet4PowLimit`. -/
def testNet4PowLimit : Nat :=
  0x00000fffffffffffffffffffffffffffffffffffffffffffffffffffffffffff

/-- Value of `simNetPowLimit`: `(1 << 255) - 1`. -/
def simNetPowLimit : Nat :=
  2 ^ 255 - 1

/-- Table `MainNetParams`. -/
def MainNetParams (w : WireNets) : Params :=
  { Name := "mainnet"
    Net := w.MainNet
    DefaultPort := "41888"
    PowLimit := mainPowLimit
    PowLimitBits := 504365055
    RuleChangeActivationThreshold := 15120
    MinerConfirmationWindow := 20160
    Bech32HRPSegwit := "mil"
    PubKeyHashAddrID := 0x32
    ScriptHashAddrID := 0x30
    PrivateKeyID := 0xEF
    WitnessPubKeyHashAddrID := 0x06
    WitnessScriptHashAddrID := 0x0A
    HDPrivateKeyID := xprv
    HDPublicKeyID := xpub
    HDCoinType := 2
    CharityPubKey := "" }

/-- Table `RegressionNetParams`. -/
def RegressionNetParams (w : WireNets) : Params :=
  { Name := "regtest"
    Net := w.TestNet
    DefaultPort := "31880"
    PowLimit := regressionPowLimit
    PowLimitBits := 0x207fffff
    RuleChangeActivationThreshold := 108
    MinerConfirmationWindow := 144
    Bech32HRPSegwit := "remc2"
    PubKeyHashAddrID := 0x6f
    ScriptHashAddrID := 0xc4
    PrivateKeyID := 0xef
    WitnessPubKeyHashAddrID := 0x31
    WitnessScriptHashAddrID := 0x3a
    HDPrivateKeyID := tprv
    HDPublicKeyID := tpub
    HDCoinType := 1
    CharityPubKey := "0377ba3117d776b40b49a910e869cd32adee4d33578f7bf52e1879ea739c9796ca" }

/-- Table `TestNet4Params`. -/
def TestNet4Params (w : WireNets) : Params :=
  { Name := "testnet4"
    Net := w.TestNet4
    DefaultPort := "31878"
    PowLimit := testNet4PowLimit
    PowLimitBits := 504365055
    RuleChangeActivationThreshold := 15
    MinerConfirmationWindow := 15
    Bech32HRPSegwit := "temc2"
    PubKeyHashAddrID := 0x6f
    ScriptHashAddrID := 0xc4
    PrivateKeyID := 0xef
    WitnessPubKeyHashAddrID := 0x52
    WitnessScriptHashAddrID := 0x31
    HDPrivateKeyID := tprv
    HDPublicKeyID := tpub
    HDCoinType := 1
    CharityPubKey := "" }

/-- Table `SimNetParams`. -/
def SimNetParams (w : WireNets) : Params :=
  { Name := "simnet"
    Net := w.SimNet
    DefaultPort := "18555"
    PowLimit := simNetPowLimit
    PowLimitBits := 0x207fffff
    RuleChangeActivationThreshold := 75
    MinerConfirmationWindow := 100
    Bech32HRPSegwit := "sltc"
    PubKeyHashAddrID := 0x3f
    ScriptHashAddrID := 0x7b
    PrivateKeyID := 0x64
    WitnessPubKeyHashAddrID := 0x19
    WitnessScriptHashAddrID := 0x28
    HDPrivateKeyID := sprv
    HDPublicKeyID := spub
    HDCoinType := 115
    CharityPubKey := "" }

/-- Package `init`: the four default networks go through `mustRegister` in the
order of the source, starting from the empty maps; a panic stops the run. -/
def init (w : WireNets) : Option String × Registry :=
  match mustRegister Registry.empty (MainNetParams w) with
  | (some msg, s1) => (some msg, s1)
  | (none, s1) =>
    match mustRegister s1 (TestNet4Params w) with
    | (some msg, s2) => (some msg, s2)
    | (none, s2) =>
      match mustRegister s2 (RegressionNetParams w) with
      | (some msg, s3) => (some msg, s3)
      | (none, s3) => mustRegister s3 (SimNetParams w)

/-- The four `wire` constants are pairwise distinct. -/
def WireNets.distinct (w : WireNets) : Prop :=
  [w.MainNet, w.TestNet4, w.TestNet, w.SimNet].Nodup

instance (w : WireNets) : Decidable w.distinct :=
  inferInstanceAs (Decidable ([w.MainNet, w.TestNet4, w.TestNet, w.SimNet].Nodup))

/-- A sample assignment of four distinct network magics. -/
def sampleWire : WireNets :=
  { MainNet := 0xdbb6c0fb
    TestNet := 0xdab5bffa
    TestNet4 := 0xf1c8d2fd
    SimNet := 0x12141c16 }

/-! ## The registry with the caller's memory

`Register` receives a `*Params` and stores `params.HDPublicKeyID[:]`: a slice
whose backing array is the `HDPublicKeyID` field of the caller's variable.  The
definitions below keep that sharing: the state holds the caller's `Params`
variables by address, and a stored slice is the address of the variable whose
`HDPublicKeyID` array it covers.  Keys and set elements are values, as in Go. -/

/-- Address of a `Params` variable: the value of a `*Params`. -/
abbrev Addr := Nat

/-- The `Params` variables of the program by address, and the five package-level
maps; a `[]byte` value of `hdPrivToPubKeyIDs` is the address of the variable
whose `HDPublicKeyID` array the slice covers. -/
structure World where
  mem : Addr → Params
  registeredNets : Finset BitcoinNet
  pubKeyHashAddrIDs : Finset Byte
  scriptHashAddrIDs : Finset Byte
  bech32SegwitPrefixes : Finset String
  hdPrivToPubKeyIDs : Finmap (fun _ : Bytes4 => Addr)

/-- Empty maps over a given memory. -/
def World.empty (mem : Addr → Params) : World :=
  { mem := mem
    registeredNets := ∅
    pubKeyHashAddrIDs := ∅
    scriptHashAddrIDs := ∅
    bech32SegwitPrefixes := ∅
    hdPrivToPubKeyIDs := ∅ }

/-- Function `Register` on a pointer: the fields are read from the variable at
`params`; the HD map receives the slice `params.HDPublicKeyID[:]`. -/
def RegisterShared (w : World) (params : Addr) : Option Error × World :=
  if (w.mem params).Net ∈ w.registeredNets then
    (some Error.ErrDuplicateNet, w)
  else
    (none,
      { mem := w.mem
        registeredNets := insert (w.mem params).Net w.registeredNets
        pubKeyHashAddrIDs := insert (w.mem params).PubKeyHashAddrID w.pubKeyHashAddrIDs
        scriptHashAddrIDs := insert (w.mem params).ScriptHashAddrID w.scriptHashAddrIDs
        hdPrivToPubKeyIDs :=
          Finmap.insert (w.mem params).HDPrivateKeyID params w.hdPrivToPubKeyIDs
        bech32SegwitPrefixes :=
          insert ((w.mem params).Bech32HRPSegwit ++ "1") w.bech32SegwitPrefixes })

/-- Function `IsPubKeyHashAddrID` on the state with memory. -/
def IsPubKeyHashAddrIDShared (w : World) (id : Byte) : Bool :=
  decide (id ∈ w.pubKeyHashAddrIDs)

/-- Function `IsScriptHashAddrID` on the state with memory. -/
def IsScriptHashAddrIDShared (w : World) (id : Byte) : Bool :=
  decide (id ∈ w.scriptHashAddrIDs)

/-- Function `IsBech32SegwitPrefix` on the state with memory. -/
def IsBech32SegwitPrefixShared (w : World) (pfx : String) : Bool :=
  let lowered := ToLower pfx
  decide (lowered ∈ w.bech32SegwitPrefixes)

/-- Function `HDPrivateKeyToPublicKeyID` on the state with memory: the result is the
stored slice itself (`none` is the `nil` slice), not a copy of its bytes. -/
def HDPrivateKeyToPublicKeyIDShared (w : World) (id : List Byte) :
    Option Addr × Option Error :=
  if h : id.length ≠ 4 then
    (none, some Error.ErrUnknownHDKeyID)
  else
    let key : Bytes4 := ⟨id, not_not.mp h⟩
    match w.hdPrivToPubKeyIDs.lookup key with
    | none => (none, some Error.ErrUnknownHDKeyID)
    | some pubBytes => (some pubBytes, none)

/-- The bytes a caller reads from a slice in the current memory. -/
def sliceBytes (w : World) : Option Addr → List Byte
  | none => []
  | some a => (w.mem a).HDPublicKeyID.val

/-- A caller's assignment `p.HDPublicKeyID = v` to the variable at address `a`. -/
def assignHDPublicKeyID (w : World) (a : Addr) (v : Bytes4) : World :=
  { w with mem := fun x => if x = a then { w.mem a with HDPublicKeyID := v } else w.mem x }

/-- A caller's write `b[i] = x` through a slice `b` that covers the
`HDPublicKeyID` array of the variable at address `a`. -/
def writeSlice (w : World) (a : Addr) (i : Fin 4) (x : Byte) : World :=
  { w with
    mem := fun y =>
      if y = a then
        { w.mem a with
          HDPublicKeyID :=
            ⟨(w.mem a).HDPublicKeyID.val.set i.val x, by
              rw [List.length_set]
              exact (w.mem a).HDPublicKeyID.property⟩ }
      else w.mem y }

/-- The state with memory `w` and the state by value `s` hold the same registry:
the same four sets, and the same HD map once every stored slice is read in the
memory of `w`. -/
def Views (w : World) (s : Registry) : Prop :=
  w.registeredNets = s.registeredNets ∧
  w.pubKeyHashAddrIDs = s.pubKeyHashAddrIDs ∧
  w.scriptHashAddrIDs = s.scriptHashAddrIDs ∧
  w.bech32SegwitPrefixes = s.bech32SegwitPrefixes ∧
  ∀ k : Bytes4, s.hdPrivToPubKeyIDs.lookup k =
    (w.hdPrivToPubKeyIDs.lookup k).map (fun a => (w.mem a).HDPublicKeyID.val)

/-- A sample memory in which every address holds the sample main network. -/
def sampleWorld : World :=
  World.empty (fun _ => sampleParams 1 "mil" 0x32 0x30 xprv xpub)

/-- One action of a caller on the state with memory: it writes its variables
(the memory after the writes is given), or it calls `Register` on a pointer. -/
inductive Step where
  | write (mem : Addr → Params)
  | register (params : Addr)

/-- A run of caller actions from a state with memory.  The trace has one entry
per call of `Register`: the value the variable held at the call, its address,
and the result of the call. -/
def runShared : World → List Step → List (Params × Addr × Option Error) × World
  | w, [] => ([], w)
  | w, Step.write mem :: rest => runShared { w with mem := mem } rest
  | w, Step.register params :: rest =>
    let r := RegisterShared w params
    let out := runShared r.2 rest
    ((w.mem params, params, r.1) :: out.1, out.2)

/-- Function `IsBech32SegwitPrefix` with the library function `strings.ToLower` as a
parameter: package `strings` is not part of the repository, and outside ASCII
its lower-casing is more than `ToLower` models.  The type `σ` stands for Go
strings, which are arbitrary byte sequences; the result of `strings.ToLower` is
always valid UTF-8 (ill-formed bytes come out as `U+FFFD`), hence a `String`. -/
def IsBech32SegwitPrefixOf {σ : Type} (stringsToLower : σ → String) (s : Registry)
    (pfx : σ) : Bool :=
  let lowered := stringsToLower pfx
  decide (lowered ∈ s.bech32SegwitPrefixes)

/-- A sample memory: the variable at `0` holds the sample main network, every
other variable a network with another `Net`, the same HD private id and another
HD public id. -/
def twoVariables : Addr → Params :=
  fun x =>
    if x = 0 then sampleParams 1 "mil" 0x32 0x30 xprv xpub
    else sampleParams 2 "temc2" 0x6f 0xc4 xprv tpub

/-- A sample memory: the variable at `0` holds the sample main network, every
other variable a network with another `Net` and the same two HD ids. -/
def sameIdVariables : Addr → Params :=
  fun x =>
    if x = 0 then sampleParams 1 "mil" 0x32 0x30 xprv xpub
    else sampleParams 2 "temc2" 0x6f 0xc4 xprv xpub

/-! ## Compact form of a proof-of-work limit -/

/-- Byte count of `n` with `fuel` division steps left. -/
def byteLenAux : Nat → Nat → Nat
  | 0, _ => 0
  | fuel + 1, n => if n = 0 then 0 else byteLenAux fuel (n / 256) + 1

/-- Number of bytes of the big-endian form of `n` without leading zero bytes
(`len(n.Bytes())` of a `big.Int`); `n` division steps always suffice. -/
def byteLen (n : Nat) : Nat :=
  byteLenAux n n

/-- Modelled from the spec: the compact ("nBits") encoding of a non-negative
integer, which the repository uses by name (`PowLimitBits` is "in compact form")
but does not contain (it is `BigToCompact` of package `blockchain`).  The byte
length is the exponent and goes to the top byte; the three most significant
bytes are the mantissa; when the sign bit `0x00800000` of the mantissa would be
set, the mantissa is shifted right by one byte and the exponent grows by one.
The result is a `uint32`. -/
def BigToCompact (n : Nat) : Nat :=
  if n = 0 then 0
  else
    let exponent := byteLen n
    let mantissa :=
      if exponent ≤ 3 then n * 256 ^ (3 - exponent) else n / 256 ^ (exponent - 3)
    if mantissa / 0x00800000 % 2 = 1 then
      ((exponent + 1) * 2 ^ 24 + mantissa / 256) % 2 ^ 32
    else
      (exponent * 2 ^ 24 + mantissa) % 2 ^ 32

/-! ## Helper lemmas -/

theorem Register_of_mem {s : Registry} {p : Params} (h : p.Net ∈ s.registeredNets) :
    Register s p = (some Error.ErrDuplicateNet, s) := by
  simp [Register, h]

theorem Register_of_not_mem {s : Registry} {p : Params} (h : p.Net ∉ s.registeredNets) :
    Register s p =
      (none,
        { registeredNets := insert p.Net s.registeredNets
          pubKeyHashAddrIDs := insert p.PubKeyHashAddrID s.pubKeyHashAddrIDs
          scriptHashAddrIDs := insert p.ScriptHashAddrID s.scriptHashAddrIDs
          hdPrivToPubKeyIDs :=
            Finmap.insert p.HDPrivateKeyID p.HDPublicKeyID.val s.hdPrivToPubKeyIDs
          bech32SegwitPrefixes := insert (p.Bech32HRPSegwit ++ "1") s.bech32SegwitPrefixes }) := by
  simp [Register, h]

theorem Register_fst_eq_none_iff (s : Registry) (p : Params) :
    (Register s p).1 = none ↔ p.Net ∉ s.registeredNets := by
  by_cases h : p.Net ∈ s.registeredNets
  · simp [Register_of_mem h, h]
  · simp [Register_of_not_mem h, h]

theorem registerAll_nil (s : Registry) : registerAll s [] = ([], s) := rfl

theorem registerAll_cons (s : Registry) (p : Params) (ps : List Params) :
    registerAll s (p :: ps) =
      ((p, (Register s p).1) :: (registerAll (Register s p).2 ps).1,
        (registerAll (Register s p).2 ps).2) := rfl

/-- After a run from any state, a byte is a pubkey-hash id iff it was one before
or an accepted call of the run brought it. -/
theorem mem_pubKeyHashAddrIDs_registerAll (ps : List Params) (s : Registry) (b : Byte) :
    b ∈ (registerAll s ps).2.pubKeyHashAddrIDs ↔
      b ∈ s.pubKeyHashAddrIDs ∨
        ∃ p, (p, none) ∈ (registerAll s ps).1 ∧ p.PubKeyHashAddrID = b := by
  induction ps generalizing s with
  | nil => simp [registerAll_nil]
  | cons a ps ih =>
    rw [registerAll_cons]
    simp only [ih, List.mem_cons, Prod.mk.injEq]
    by_cases h : a.Net ∈ s.registeredNets
    · rw [Register_of_mem h]
      constructor
      · rintro (hb | ⟨p, hp, hpb⟩)
        · exact Or.inl hb
        · exact Or.inr ⟨p, Or.inr hp, hpb⟩
      · rintro (hb | ⟨p, (⟨_, hne⟩ | hp), hpb⟩)
        · exact Or.inl hb
        · cases hne
        · exact Or.inr ⟨p, hp, hpb⟩
    · rw [Register_of_not_mem h]
      simp only [Finset.mem_insert]
      constructor
      · rintro ((hb | hb) | ⟨p, hp, hpb⟩)
        · exact Or.inr ⟨a, Or.inl ⟨rfl, trivial⟩, hb.symm⟩
        · exact Or.inl hb
        · exact Or.inr ⟨p, Or.inr hp, hpb⟩
      · rintro (hb | ⟨p, (⟨hpa, _⟩ | hp), hpb⟩)
        · exact Or.inl (Or.inr hb)
        · exact Or.inl (Or.inl (by rw [← hpb, hpa]))
        · exact Or.inr ⟨p, hp, hpb⟩

/-- After a run from any state, a byte is a script-hash id iff it was one before
or an accepted call of the run brought it. -/
theorem mem_scriptHashAddrIDs_registerAll (ps : List Params) (s : Registry) (b : Byte) :
    b ∈ (registerAll s ps).2.scriptHashAddrIDs ↔
      b ∈ s.scriptHashAddrIDs ∨
        ∃ p, (p, none) ∈ (registerAll s ps).1 ∧ p.ScriptHashAddrID = b := by
  induction ps generalizing s with
  | nil => simp [registerAll_nil]
  | cons a ps ih =>
    rw [registerAll_cons]
    simp only [ih, List.mem_cons, Prod.mk.injEq]
    by_cases h : a.Net ∈ s.registeredNets
    · rw [Register_of_mem h]
      constructor
      · rintro (hb | ⟨p, hp, hpb⟩)
        · exact Or.inl hb
        · exact Or.inr ⟨p, Or.inr hp, hpb⟩
      · rintro (hb | ⟨p, (⟨_, hne⟩ | hp), hpb⟩)
        · exact Or.inl hb
        · cases hne
        · exact Or.inr ⟨p, hp, hpb⟩
    · rw [Register_of_not_mem h]
      simp only [Finset.mem_insert]
      constructor
      · rintro ((hb | hb) | ⟨p, hp, hpb⟩)
        · exact Or.inr ⟨a, Or.inl ⟨rfl, trivial⟩, hb.symm⟩
        · exact Or.inl hb
        · exact Or.inr ⟨p, Or.inr hp, hpb⟩
      · rintro (hb | ⟨p, (⟨hpa, _⟩ | hp), hpb⟩)
        · exact Or.inl (Or.inr hb)
        · exact Or.inl (Or.inl (by rw [← hpb, hpa]))
        · exact Or.inr ⟨p, hp, hpb⟩

/-- The lookup on the bytes of a 4-byte array: the length test passes and the
result is decided by the map alone. -/
theorem HDPrivateKeyToPublicKeyID_val (s : Registry) (k : Bytes4) :
    HDPrivateKeyToPublicKeyID s k.val =
      match s.hdPrivToPubKeyIDs.lookup k with
      | none => ([], some Error.ErrUnknownHDKeyID)
      | some pubBytes => (pubBytes, none) := by
  unfold HDPrivateKeyToPublicKeyID
  have h : ¬ (k.val.length ≠ 4) := not_not.mpr k.property
  rw [dif_neg h]

/-- The lookup on a slice that is not 4 bytes long. -/
theorem HDPrivateKeyToPublicKeyID_of_length_ne (s : Registry) (id : List Byte)
    (h : id.length ≠ 4) :
    HDPrivateKeyToPublicKeyID s id = ([], some Error.ErrUnknownHDKeyID) := by
  unfold HDPrivateKeyToPublicKeyID
  rw [dif_pos h]

/-- Lower-casing goes through concatenation. -/
theorem ToLower_append (a b : String) : ToLower (a ++ b) = ToLower a ++ ToLower b := by
  apply String.ext
  simp [ToLower]

/-- The query is membership of the lower-cased argument in the stored set. -/
theorem IsBech32SegwitPrefix_eq_true_iff (s : Registry) (pfx : String) :
    IsBech32SegwitPrefix s pfx = true ↔ ToLower pfx ∈ s.bech32SegwitPrefixes := by
  simp [IsBech32SegwitPrefix]

/-- Whatever the outcome, the registered nets after `Register` are the old ones
and `p.Net`. -/
theorem registeredNets_Register (s : Registry) (p : Params) :
    (Register s p).2.registeredNets = insert p.Net s.registeredNets := by
  by_cases h : p.Net ∈ s.registeredNets
  · rw [Register_of_mem h, Finset.insert_eq_of_mem h]
  · rw [Register_of_not_mem h]

theorem mustRegister_of_mem {s : Registry} {p : Params} (h : p.Net ∈ s.registeredNets) :
    mustRegister s p =
      (some ("failed to register network: " ++ Error.ErrDuplicateNet.text), s) := by
  simp [mustRegister, Register_of_mem h]

theorem mustRegister_of_not_mem {s : Registry} {p : Params} (h : p.Net ∉ s.registeredNets) :
    mustRegister s p = (none, (Register s p).2) := by
  simp [mustRegister, Register_of_not_mem h]

/-- With pairwise distinct constants `init` does not panic and leaves the state
of the four registrations in the order of the source. -/
theorem init_of_distinct (w : WireNets) (h : w.distinct) :
    init w = (none,
      (Register (Register (Register (Register Registry.empty (MainNetParams w)).2
        (TestNet4Params w)).2 (RegressionNetParams w)).2 (SimNetParams w)).2) := by
  simp only [WireNets.distinct, List.nodup_cons, List.mem_cons, List.mem_singleton,
    List.not_mem_nil, not_or, not_false_eq_true, List.nodup_nil, and_true, or_false] at h
  obtain ⟨⟨h12, h13, h14⟩, ⟨h23, h24⟩, h34⟩ := h
  have m1 : (MainNetParams w).Net ∉ Registry.empty.registeredNets := by
    simp [Registry.empty]
  have m2 : (TestNet4Params w).Net ∉
      (Register Registry.empty (MainNetParams w)).2.registeredNets := by
    rw [registeredNets_Register]
    simp [Registry.empty, MainNetParams, TestNet4Params, Ne.symm h12]
  have m3 : (RegressionNetParams w).Net ∉
      (Register (Register Registry.empty (MainNetParams w)).2
        (TestNet4Params w)).2.registeredNets := by
    rw [registeredNets_Register, registeredNets_Register]
    simp [Registry.empty, MainNetParams, TestNet4Params, RegressionNetParams,
      Ne.symm h13, Ne.symm h23]
  have m4 : (SimNetParams w).Net ∉
      (Register (Register (Register Registry.empty (MainNetParams w)).2
        (TestNet4Params w)).2 (RegressionNetParams w)).2.registeredNets := by
    rw [registeredNets_Register, registeredNets_Register, registeredNets_Register]
    simp [Registry.empty, MainNetParams, TestNet4Params, RegressionNetParams, SimNetParams,
      Ne.symm h14, Ne.symm h24, Ne.symm h34]
  unfold init
  rw [mustRegister_of_not_mem m1]
  simp only []
  rw [mustRegister_of_not_mem m2]
  simp only []
  rw [mustRegister_of_not_mem m3]
  simp only []
  rw [mustRegister_of_not_mem m4]

/-- The registered nets after `init` without panic. -/
theorem registeredNets_init (w : WireNets) (h : w.distinct) :
    (init w).2.registeredNets = {w.MainNet, w.TestNet4, w.TestNet, w.SimNet} := by
  rw [init_of_distinct w h]
  simp only [registeredNets_Register]
  ext x
  simp [Registry.empty, MainNetParams, TestNet4Params, RegressionNetParams, SimNetParams]
  tauto

/-- Function `init` returns without panic exactly when the four constants are pairwise
distinct. -/
theorem init_fst_eq_none_iff (w : WireNets) : (init w).1 = none ↔ w.distinct := by
  constructor
  · intro hnone
    have m1 : (MainNetParams w).Net ∉ Registry.empty.registeredNets := by
      simp [Registry.empty]
    by_cases m2 : (TestNet4Params w).Net ∈
        (Register Registry.empty (MainNetParams w)).2.registeredNets
    · exfalso
      unfold init at hnone
      rw [mustRegister_of_not_mem m1] at hnone
      simp only [] at hnone
      rw [mustRegister_of_mem m2] at hnone
      simp at hnone
    by_cases m3 : (RegressionNetParams w).Net ∈
        (Register (Register Registry.empty (MainNetParams w)).2
          (TestNet4Params w)).2.registeredNets
    · exfalso
      unfold init at hnone
      rw [mustRegister_of_not_mem m1] at hnone
      simp only [] at hnone
      rw [mustRegister_of_not_mem m2] at hnone
      simp only [] at hnone
      rw [mustRegister_of_mem m3] at hnone
      simp at hnone
    by_cases m4 : (SimNetParams w).Net ∈
        (Register (Register (Register Registry.empty (MainNetParams w)).2
          (TestNet4Params w)).2 (RegressionNetParams w)).2.registeredNets
    · exfalso
      unfold init at hnone
      rw [mustRegister_of_not_mem m1] at hnone
      simp only [] at hnone
      rw [mustRegister_of_not_mem m2] at hnone
      simp only [] at hnone
      rw [mustRegister_of_not_mem m3] at hnone
      simp only [] at hnone
      rw [mustRegister_of_mem m4] at hnone
      simp at hnone
    simp only [registeredNets_Register] at m2 m3 m4
    simp [Registry.empty, MainNetParams, TestNet4Params, RegressionNetParams,
      SimNetParams] at m2 m3 m4
    simp only [WireNets.distinct, List.nodup_cons, List.mem_cons, List.mem_singleton,
      List.not_mem_nil, not_or, not_false_eq_true, List.nodup_nil, and_true, or_false]
    refine ⟨⟨Ne.symm m2, Ne.symm m3.2, Ne.symm m4.2.2⟩, ⟨Ne.symm m3.1, Ne.symm m4.2.1⟩,
      Ne.symm m4.1⟩
  · intro h
    rw [init_of_distinct w h]

/-- The trace of a run lists the arguments of the calls in order. -/
theorem registerAll_fst_map (ps : List Params) (s : Registry) :
    (registerAll s ps).1.map Prod.fst = ps := by
  induction ps generalizing s with
  | nil => rfl
  | cons a ps ih => rw [registerAll_cons, List.map_cons, ih]

/-- The registered nets after a run: the old ones and the `Net` of every call. -/
theorem registeredNets_registerAll (ps : List Params) (s : Registry) :
    (registerAll s ps).2.registeredNets =
      s.registeredNets ∪ (ps.map Params.Net).toFinset := by
  induction ps generalizing s with
  | nil => simp [registerAll_nil]
  | cons a ps ih =>
    rw [registerAll_cons, ih, registeredNets_Register]
    ext x
    simp only [Finset.mem_union, Finset.mem_insert, List.map_cons, List.toFinset_cons]
    tauto

/-- Call number `i` of a run returns `nil` exactly when its `Net` was not
registered at the start and no earlier call of the run had it. -/
theorem registerAll_getElem_none_iff (ps : List Params) (s : Registry) (i : Nat)
    (p : Params) (r : Option Error) (hi : (registerAll s ps).1[i]? = some (p, r)) :
    r = none ↔
      p.Net ∉ s.registeredNets ∧ ∀ j q, j < i → ps[j]? = some q → q.Net ≠ p.Net := by
  induction ps generalizing s i with
  | nil => simp [registerAll_nil] at hi
  | cons a ps ih =>
    rw [registerAll_cons] at hi
    cases i with
    | zero =>
      simp only [List.getElem?_cons_zero, Option.some.injEq, Prod.mk.injEq] at hi
      obtain ⟨rfl, rfl⟩ := hi
      rw [Register_fst_eq_none_iff]
      constructor
      · intro h
        exact ⟨h, fun j q hj => absurd hj (Nat.not_lt_zero j)⟩
      · intro h
        exact h.1
    | succ i =>
      rw [List.getElem?_cons_succ] at hi
      rw [ih _ i hi, registeredNets_Register, Finset.mem_insert, not_or]
      constructor
      · rintro ⟨⟨hne, hnot⟩, hall⟩
        refine ⟨hnot, fun j q hj hq => ?_⟩
        cases j with
        | zero =>
          simp only [List.getElem?_cons_zero, Option.some.injEq] at hq
          rw [← hq]
          exact Ne.symm hne
        | succ j =>
          rw [List.getElem?_cons_succ] at hq
          exact hall j q (Nat.lt_of_succ_lt_succ hj) hq
      · rintro ⟨hnot, hall⟩
        refine ⟨⟨?_, hnot⟩, fun j q hj hq => ?_⟩
        · exact Ne.symm (hall 0 a (Nat.succ_pos i) (List.getElem?_cons_zero))
        · exact hall (j + 1) q (Nat.succ_lt_succ hj) (by rw [List.getElem?_cons_succ]; exact hq)

/-- The number of calls of a run that return `nil` is the number of `Net` values
of the run that were not registered at the start. -/
theorem registerAll_countP (ps : List Params) (s : Registry) :
    (registerAll s ps).1.countP (fun x => x.2.isNone) =
      ((ps.map Params.Net).toFinset \ s.registeredNets).card := by
  induction ps generalizing s with
  | nil => simp [registerAll_nil]
  | cons a ps ih =>
    rw [registerAll_cons, List.countP_cons, ih, List.map_cons, List.toFinset_cons]
    by_cases h : a.Net ∈ s.registeredNets
    · rw [Register_of_mem h, Finset.insert_sdiff_of_mem _ h]
      simp
    · have hins : insert a.Net (ps.map Params.Net).toFinset \ s.registeredNets =
          insert a.Net ((ps.map Params.Net).toFinset \ insert a.Net s.registeredNets) := by
        ext x
        simp only [Finset.mem_sdiff, Finset.mem_insert, not_or]
        constructor
        · rintro ⟨hx | hx, hxs⟩
          · exact Or.inl hx
          · by_cases hxa : x = a.Net
            · exact Or.inl hxa
            · exact Or.inr ⟨hx, hxa, hxs⟩
        · rintro (hx | ⟨hx, _, hxs⟩)
          · exact ⟨Or.inl hx, by rw [hx]; exact h⟩
          · exact ⟨Or.inr hx, hxs⟩
      have hnot : a.Net ∉ (ps.map Params.Net).toFinset \ insert a.Net s.registeredNets := by
        simp
      rw [hins, Finset.card_insert_of_not_mem hnot, Register_of_not_mem h]
      simp

/-- The five maps after `init` without panic, written as the four insertions in
the order of the source. -/
theorem init_snd_of_distinct (w : WireNets) (h : w.distinct) :
    (init w).2 =
      { registeredNets :=
          insert w.SimNet (insert w.TestNet (insert w.TestNet4 (insert w.MainNet ∅)))
        pubKeyHashAddrIDs := insert 0x3f (insert 0x6f (insert 0x6f (insert 0x32 ∅)))
        scriptHashAddrIDs := insert 0x7b (insert 0xc4 (insert 0xc4 (insert 0x30 ∅)))
        hdPrivToPubKeyIDs :=
          Finmap.insert sprv spub.val (Finmap.insert tprv tpub.val
            (Finmap.insert tprv tpub.val (Finmap.insert xprv xpub.val ∅)))
        bech32SegwitPrefixes :=
          insert ("sltc" ++ "1") (insert ("remc2" ++ "1") (insert ("temc2" ++ "1")
            (insert ("mil" ++ "1") ∅))) } := by
  have hd := h
  simp only [WireNets.distinct, List.nodup_cons, List.mem_cons, List.mem_singleton,
    List.not_mem_nil, not_or, not_false_eq_true, List.nodup_nil, and_true, or_false] at hd
  obtain ⟨⟨h12, h13, h14⟩, ⟨h23, h24⟩, h34⟩ := hd
  have m1 : (MainNetParams w).Net ∉ Registry.empty.registeredNets := by
    simp [Registry.empty]
  have m2 : (TestNet4Params w).Net ∉
      (Register Registry.empty (MainNetParams w)).2.registeredNets := by
    rw [registeredNets_Register]
    simp [Registry.empty, MainNetParams, TestNet4Params, Ne.symm h12]
  have m3 : (RegressionNetParams w).Net ∉
      (Register (Register Registry.empty (MainNetParams w)).2
        (TestNet4Params w)).2.registeredNets := by
    rw [registeredNets_Register, registeredNets_Register]
    simp [Registry.empty, MainNetParams, TestNet4Params, RegressionNetParams,
      Ne.symm h13, Ne.symm h23]
  have m4 : (SimNetParams w).Net ∉
      (Register (Register (Register Registry.empty (MainNetParams w)).2
        (TestNet4Params w)).2 (RegressionNetParams w)).2.registeredNets := by
    rw [registeredNets_Register, registeredNets_Register, registeredNets_Register]
    simp [Registry.empty, MainNetParams, TestNet4Params, RegressionNetParams, SimNetParams,
      Ne.symm h14, Ne.symm h24, Ne.symm h34]
  rw [init_of_distinct w h]
  have e4 := Register_of_not_mem m4
  have e3 := Register_of_not_mem m3
  have e2 := Register_of_not_mem m2
  have e1 := Register_of_not_mem m1
  rw [e4, e3, e2, e1]
  rfl

/-- The Bech32 prefixes after `init` without panic. -/
theorem bech32SegwitPrefixes_init (w : WireNets) (h : w.distinct) :
    (init w).2.bech32SegwitPrefixes = {"mil1", "temc21", "remc21", "sltc1"} := by
  rw [init_snd_of_distinct w h]
  show (insert ("sltc" ++ "1") (insert ("remc2" ++ "1") (insert ("temc2" ++ "1")
    (insert ("mil" ++ "1") ∅))) : Finset String) = {"mil1", "temc21", "remc21", "sltc1"}
  decide

/-- The HD map after `init` without panic. -/
theorem hdPrivToPubKeyIDs_init (w : WireNets) (h : w.distinct) :
    (init w).2.hdPrivToPubKeyIDs =
      Finmap.insert sprv spub.val (Finmap.insert tprv tpub.val
        (Finmap.insert tprv tpub.val (Finmap.insert xprv xpub.val ∅))) := by
  rw [init_snd_of_distinct w h]

theorem RegisterShared_of_mem {w : World} {a : Addr}
    (h : (w.mem a).Net ∈ w.registeredNets) :
    RegisterShared w a = (some Error.ErrDuplicateNet, w) := by
  simp [RegisterShared, h]

theorem RegisterShared_of_not_mem {w : World} {a : Addr}
    (h : (w.mem a).Net ∉ w.registeredNets) :
    RegisterShared w a =
      (none,
        { mem := w.mem
          registeredNets := insert (w.mem a).Net w.registeredNets
          pubKeyHashAddrIDs := insert (w.mem a).PubKeyHashAddrID w.pubKeyHashAddrIDs
          scriptHashAddrIDs := insert (w.mem a).ScriptHashAddrID w.scriptHashAddrIDs
          hdPrivToPubKeyIDs :=
            Finmap.insert (w.mem a).HDPrivateKeyID a w.hdPrivToPubKeyIDs
          bech32SegwitPrefixes :=
            insert ((w.mem a).Bech32HRPSegwit ++ "1") w.bech32SegwitPrefixes }) := by
  simp [RegisterShared, h]

/-- The lookup with memory on the bytes of a 4-byte array. -/
theorem HDPrivateKeyToPublicKeyIDShared_val (w : World) (k : Bytes4) :
    HDPrivateKeyToPublicKeyIDShared w k.val =
      match w.hdPrivToPubKeyIDs.lookup k with
      | none => (none, some Error.ErrUnknownHDKeyID)
      | some pubBytes => (some pubBytes, none) := by
  unfold HDPrivateKeyToPublicKeyIDShared
  have h : ¬ (k.val.length ≠ 4) := not_not.mpr k.property
  rw [dif_neg h]

/-- As long as memory is not written, `Register` on a pointer and `Register` on
the value the pointer refers to return the same result and keep the two states
in step. -/
theorem Views_Register (w : World) (s : Registry) (a : Addr) (hv : Views w s) :
    (RegisterShared w a).1 = (Register s (w.mem a)).1 ∧
    Views (RegisterShared w a).2 (Register s (w.mem a)).2 := by
  obtain ⟨h1, h2, h3, h4, h5⟩ := hv
  by_cases h : (w.mem a).Net ∈ w.registeredNets
  · rw [RegisterShared_of_mem h, Register_of_mem (h1 ▸ h)]
    exact ⟨rfl, h1, h2, h3, h4, h5⟩
  · rw [RegisterShared_of_not_mem h, Register_of_not_mem (h1 ▸ h)]
    refine ⟨rfl, ?_, ?_, ?_, ?_, ?_⟩
    · show insert _ w.registeredNets = insert _ s.registeredNets
      rw [h1]
    · show insert _ w.pubKeyHashAddrIDs = insert _ s.pubKeyHashAddrIDs
      rw [h2]
    · show insert _ w.scriptHashAddrIDs = insert _ s.scriptHashAddrIDs
      rw [h3]
    · show insert _ w.bech32SegwitPrefixes = insert _ s.bech32SegwitPrefixes
      rw [h4]
    · intro k
      show (Finmap.insert _ _ s.hdPrivToPubKeyIDs).lookup k =
        ((Finmap.insert _ a w.hdPrivToPubKeyIDs).lookup k).map
          (fun x => (w.mem x).HDPublicKeyID.val)
      by_cases hk : k = (w.mem a).HDPrivateKeyID
      · subst hk
        rw [Finmap.lookup_insert, Finmap.lookup_insert]
        rfl
      · rw [Finmap.lookup_insert_of_ne _ hk, Finmap.lookup_insert_of_ne _ hk]
        exact h5 k

/-- As long as memory is not written, the bytes and the error that a caller gets
from the lookup with memory are those of the lookup by value. -/
theorem Views_HDPrivateKeyToPublicKeyID (w : World) (s : Registry) (id : List Byte)
    (hv : Views w s) :
    (sliceBytes w (HDPrivateKeyToPublicKeyIDShared w id).1,
      (HDPrivateKeyToPublicKeyIDShared w id).2) = HDPrivateKeyToPublicKeyID s id := by
  unfold HDPrivateKeyToPublicKeyIDShared HDPrivateKeyToPublicKeyID
  by_cases hlen : id.length ≠ 4
  · rw [dif_pos hlen, dif_pos hlen]
    rfl
  · rw [dif_neg hlen, dif_neg hlen]
    have h5 := hv.2.2.2.2 ⟨id, not_not.mp hlen⟩
    simp only []
    rw [h5]
    cases w.hdPrivToPubKeyIDs.lookup (⟨id, not_not.mp hlen⟩ : Bytes4) <;> rfl

/-- With at least `n` steps of fuel, the byte count of `n` is `0` for `n = 0` and
otherwise the `k` with `256 ^ (k - 1) ≤ n < 256 ^ k`. -/
theorem byteLenAux_spec (fuel n : Nat) (h : n ≤ fuel) :
    (n = 0 → byteLenAux fuel n = 0) ∧
    (0 < n → 0 < byteLenAux fuel n ∧ 256 ^ (byteLenAux fuel n - 1) ≤ n ∧
      n < 256 ^ byteLenAux fuel n) := by
  induction fuel generalizing n with
  | zero =>
    have : n = 0 := Nat.le_zero.mp h
    subst this
    exact ⟨fun _ => rfl, fun hn => absurd hn (Nat.lt_irrefl 0)⟩
  | succ fuel ih =>
    constructor
    · intro hn
      simp [byteLenAux, hn]
    · intro hn
      have hne : n ≠ 0 := Nat.pos_iff_ne_zero.mp hn
      have hdiv : n / 256 ≤ fuel := by omega
      have hstep : byteLenAux (fuel + 1) n = byteLenAux fuel (n / 256) + 1 := by
        simp [byteLenAux, hne]
      rw [hstep]
      obtain ⟨ih0, ihpos⟩ := ih (n / 256) hdiv
      by_cases hm : n / 256 = 0
      · rw [ih0 hm]
        refine ⟨Nat.succ_pos 0, ?_, ?_⟩
        · simpa using hn
        · simp only [zero_add, pow_one]
          omega
      · obtain ⟨hk, hlo, hhi⟩ := ihpos (Nat.pos_of_ne_zero hm)
        refine ⟨Nat.succ_pos _, ?_, ?_⟩
        · have e : byteLenAux fuel (n / 256) + 1 - 1 =
              (byteLenAux fuel (n / 256) - 1) + 1 := by omega
          rw [e, pow_succ]
          have := Nat.mul_le_mul_right 256 hlo
          have hdm := Nat.div_mul_le_self n 256
          omega
        · rw [pow_succ]
          have := Nat.mul_le_mul_right 256 (Nat.succ_le_of_lt hhi)
          omega

/-- The byte count of a positive `n` is the `k` with `256 ^ (k - 1) ≤ n < 256 ^ k`. -/
theorem byteLen_spec (n : Nat) (hn : 0 < n) :
    0 < byteLen n ∧ 256 ^ (byteLen n - 1) ≤ n ∧ n < 256 ^ byteLen n :=
  (byteLenAux_spec n n (Nat.le_refl n)).2 hn

theorem RegisterShared_fst_eq_none_iff (w : World) (a : Addr) :
    (RegisterShared w a).1 = none ↔ (w.mem a).Net ∉ w.registeredNets := by
  by_cases h : (w.mem a).Net ∈ w.registeredNets
  · simp [RegisterShared_of_mem h, h]
  · simp [RegisterShared_of_not_mem h, h]

theorem runShared_nil (w : World) : runShared w [] = ([], w) := rfl

theorem runShared_write (w : World) (mem : Addr → Params) (rest : List Step) :
    runShared w (Step.write mem :: rest) = runShared { w with mem := mem } rest := rfl

theorem runShared_register (w : World) (a : Addr) (rest : List Step) :
    runShared w (Step.register a :: rest) =
      ((w.mem a, a, (RegisterShared w a).1) :: (runShared (RegisterShared w a).2 rest).1,
        (runShared (RegisterShared w a).2 rest).2) := rfl

/-- A key of the HD map that no accepted call of a run writes keeps its entry. -/
theorem lookup_runShared_of_not_written (steps : List Step) (w : World) (k : Bytes4)
    (h : ∀ (j : Nat) (q : Params) (b : Addr),
      (runShared w steps).1[j]? = some (q, b, none) → q.HDPrivateKeyID ≠ k) :
    (runShared w steps).2.hdPrivToPubKeyIDs.lookup k = w.hdPrivToPubKeyIDs.lookup k := by
  induction steps generalizing w with
  | nil => rfl
  | cons st rest ih =>
    cases st with
    | write mem =>
      rw [runShared_write] at h ⊢
      exact ih _ h
    | register a =>
      rw [runShared_register] at h ⊢
      have hrest : ∀ (j : Nat) (q : Params) (b : Addr),
          (runShared (RegisterShared w a).2 rest).1[j]? = some (q, b, none) →
          q.HDPrivateKeyID ≠ k := by
        intro j q b hj
        exact h (j + 1) q b (by rw [List.getElem?_cons_succ]; exact hj)
      show (runShared (RegisterShared w a).2 rest).2.hdPrivToPubKeyIDs.lookup k = _
      rw [ih _ hrest]
      by_cases hm : (w.mem a).Net ∈ w.registeredNets
      · rw [RegisterShared_of_mem hm]
      · have hnone : (RegisterShared w a).1 = none :=
          (RegisterShared_fst_eq_none_iff w a).mpr hm
        have hne : (w.mem a).HDPrivateKeyID ≠ k :=
          h 0 (w.mem a) a (by rw [List.getElem?_cons_zero, hnone])
        rw [RegisterShared_of_not_mem hm]
        exact Finmap.lookup_insert_of_ne _ (Ne.symm hne)

/-- After a run, the HD map holds at a key the slice stored by the last accepted
call that had this key as its `HDPrivateKeyID`. -/
theorem lookup_runShared_last (steps : List Step) (w : World) (k : Bytes4) (j : Nat)
    (q : Params) (b : Addr) (hj : (runShared w steps).1[j]? = some (q, b, none))
    (hq : q.HDPrivateKeyID = k)
    (hlast : ∀ (j' : Nat) (q' : Params) (b' : Addr), j < j' →
      (runShared w steps).1[j']? = some (q', b', none) → q'.HDPrivateKeyID ≠ k) :
    (runShared w steps).2.hdPrivToPubKeyIDs.lookup k = some b := by
  induction steps generalizing w j with
  | nil => simp [runShared_nil] at hj
  | cons st rest ih =>
    cases st with
    | write mem =>
      rw [runShared_write] at hj hlast ⊢
      exact ih _ j hj hlast
    | register a =>
      rw [runShared_register] at hj hlast ⊢
      show (runShared (RegisterShared w a).2 rest).2.hdPrivToPubKeyIDs.lookup k = _
      cases j with
      | zero =>
        simp only [List.getElem?_cons_zero, Option.some.injEq, Prod.mk.injEq] at hj
        obtain ⟨hqa, hab, hnone⟩ := hj
        have hm : (w.mem a).Net ∉ w.registeredNets :=
          (RegisterShared_fst_eq_none_iff w a).mp hnone
        have hrest : ∀ (j : Nat) (q' : Params) (b' : Addr),
            (runShared (RegisterShared w a).2 rest).1[j]? = some (q', b', none) →
            q'.HDPrivateKeyID ≠ k := by
          intro j' q' b' hj'
          exact hlast (j' + 1) q' b' (Nat.succ_pos j')
            (by rw [List.getElem?_cons_succ]; exact hj')
        rw [lookup_runShared_of_not_written rest _ k hrest, RegisterShared_of_not_mem hm]
        show (Finmap.insert (w.mem a).HDPrivateKeyID a w.hdPrivToPubKeyIDs).lookup k = some b
        rw [hqa, hq, hab]
        exact Finmap.lookup_insert _
      | succ j =>
        rw [List.getElem?_cons_succ] at hj
        refine ih _ j hj (fun j' q' b' hlt hj' => ?_)
        exact hlast (j' + 1) q' b' (Nat.succ_lt_succ hlt)
          (by rw [List.getElem?_cons_succ]; exact hj')

/-- Among the indices below a bound that satisfy a property, above any one of
them there is a last one. -/
theorem exists_last_index (P : Nat → Prop) (n : Nat) (hb : ∀ j, P j → j < n) (i : Nat)
    (hi : P i) : ∃ j, i ≤ j ∧ P j ∧ ∀ j', j < j' → ¬ P j' := by
  obtain ⟨d, hd⟩ : ∃ d, n - i = d := ⟨_, rfl⟩
  induction d using Nat.strong_induction_on generalizing i with
  | _ d ih =>
    by_cases h : ∃ j', i < j' ∧ P j'
    · obtain ⟨j', hlt, hP⟩ := h
      have hj'n := hb j' hP
      obtain ⟨j, hle, hPj, hmax⟩ := ih (n - j') (by omega) j' hP rfl
      exact ⟨j, by omega, hPj, hmax⟩
    · exact ⟨i, Nat.le_refl i, hi, fun j' hlt hP => h ⟨j', hlt, hP⟩⟩

/-! ## Registration: failure and success -/

/-- C1: when the `Net` of the parameter set is registered already, `Register`
returns `ErrDuplicateNet` and the state after the call is the state before it,
in all five maps. -/
theorem Register_duplicate_unchanged (s : Registry) (p : Params)
    (h : p.Net ∈ s.registeredNets) :
    (Register s p).1 = some Error.ErrDuplicateNet ∧
    (Register s p).2 = s ∧
    (Register s p).2.registeredNets = s.registeredNets ∧
    (Register s p).2.pubKeyHashAddrIDs = s.pubKeyHashAddrIDs ∧
    (Register s p).2.scriptHashAddrIDs = s.scriptHashAddrIDs ∧
    (Register s p).2.bech32SegwitPrefixes = s.bech32SegwitPrefixes ∧
    (Register s p).2.hdPrivToPubKeyIDs = s.hdPrivToPubKeyIDs := by
  rw [Register_of_mem h]
  exact ⟨rfl, rfl, rfl, rfl, rfl, rfl, rfl⟩

/-- C1, at a concrete input: the sample main network registered a second time. -/
theorem Register_duplicate_unchanged_witness :
    let p := sampleParams 1 "mil" 0x32 0x30 xprv xpub
    let s := (Register Registry.empty p).2
    p.Net ∈ s.registeredNets ∧
    (Register s p).1 = some Error.ErrDuplicateNet ∧ (Register s p).2 = s :=
  ⟨by decide,
   (Register_duplicate_unchanged _ _ (by decide)).1,
   (Register_duplicate_unchanged _ _ (by decide)).2.1⟩

/-- C2: `Register` returns an error exactly when the `Net` is registered
already, the error is then `ErrDuplicateNet`, and a parameter set with a new
`Net` is accepted even right after a network `q` with the same address ids,
Bech32 part and HD private id. -/
theorem Register_error_iff (s : Registry) (p : Params) :
    ((Register s p).1 ≠ none ↔ p.Net ∈ s.registeredNets) ∧
    (∀ e, (Register s p).1 = some e → e = Error.ErrDuplicateNet) ∧
    (∀ q : Params, p.Net ∉ (Register s q).2.registeredNets →
      p.PubKeyHashAddrID = q.PubKeyHashAddrID → p.ScriptHashAddrID = q.ScriptHashAddrID →
      p.Bech32HRPSegwit = q.Bech32HRPSegwit → p.HDPrivateKeyID = q.HDPrivateKeyID →
      (Register (Register s q).2 p).1 = none) := by
  refine ⟨?_, ?_, ?_⟩
  · rw [Ne, Register_fst_eq_none_iff, not_not]
  · intro e he
    by_cases h : p.Net ∈ s.registeredNets
    · rw [Register_of_mem h] at he
      exact (Option.some.inj he).symm
    · rw [Register_of_not_mem h] at he
      cases he
  · intro q hq _ _ _ _
    exact (Register_fst_eq_none_iff _ _).mpr hq

/-- C2, at a concrete input: two networks that differ in `Net` only are both
accepted, and the second one is refused when offered again. -/
theorem Register_error_iff_witness :
    let q := sampleParams 1 "mil" 0x32 0x30 xprv xpub
    let p := sampleParams 2 "mil" 0x32 0x30 xprv xpub
    (Register Registry.empty q).1 = none ∧
    (Register (Register Registry.empty q).2 p).1 = none ∧
    (Register (Register (Register Registry.empty q).2 p).2 p).1 ≠ none :=
  ⟨by decide,
   (Register_error_iff Registry.empty (sampleParams 2 "mil" 0x32 0x30 xprv xpub)).2.2
      (sampleParams 1 "mil" 0x32 0x30 xprv xpub) (by decide) rfl rfl rfl rfl,
   (Register_error_iff _ _).1.mpr (by decide)⟩

/-- C3: when the `Net` is not registered, `Register` returns `nil` and the new
state is the old one with `p.Net`, `p.PubKeyHashAddrID`, `p.ScriptHashAddrID`
and `p.Bech32HRPSegwit ++ "1"` joined to their sets and the HD map updated at
`p.HDPrivateKeyID` with the bytes of `p.HDPublicKeyID`; every other key of the
HD map keeps what it had. -/
theorem Register_new_state (s : Registry) (p : Params) (h : p.Net ∉ s.registeredNets) :
    (Register s p).1 = none ∧
    (Register s p).2.registeredNets = s.registeredNets ∪ {p.Net} ∧
    (Register s p).2.pubKeyHashAddrIDs = s.pubKeyHashAddrIDs ∪ {p.PubKeyHashAddrID} ∧
    (Register s p).2.scriptHashAddrIDs = s.scriptHashAddrIDs ∪ {p.ScriptHashAddrID} ∧
    (Register s p).2.bech32SegwitPrefixes =
      s.bech32SegwitPrefixes ∪ {p.Bech32HRPSegwit ++ "1"} ∧
    (∀ k : Bytes4, (Register s p).2.hdPrivToPubKeyIDs.lookup k =
      if k = p.HDPrivateKeyID then some p.HDPublicKeyID.val
      else s.hdPrivToPubKeyIDs.lookup k) := by
  rw [Register_of_not_mem h]
  refine ⟨rfl, ?_, ?_, ?_, ?_, ?_⟩
  · ext x; simp [or_comm]
  · ext x; simp [or_comm]
  · ext x; simp [or_comm]
  · ext x; simp [or_comm]
  · intro k
    by_cases hk : k = p.HDPrivateKeyID
    · subst hk
      simp [Finmap.lookup_insert]
    · simp [hk, Finmap.lookup_insert_of_ne]

/-- C3, at a concrete input: a test network joins a registry that holds the
sample main network. -/
theorem Register_new_state_witness :
    let s := (Register Registry.empty (sampleParams 1 "mil" 0x32 0x30 xprv xpub)).2
    let p := sampleParams 2 "temc2" 0x6f 0xc4 tprv tpub
    p.Net ∉ s.registeredNets ∧
    (Register s p).2.registeredNets = s.registeredNets ∪ {p.Net} ∧
    (Register s p).2.hdPrivToPubKeyIDs.lookup xprv = some xpub.val :=
  ⟨by decide,
   (Register_new_state _ _ (by decide)).2.1,
   ((Register_new_state
      (Register Registry.empty (sampleParams 1 "mil" 0x32 0x30 xprv xpub)).2
      (sampleParams 2 "temc2" 0x6f 0xc4 tprv tpub) (by decide)).2.2.2.2.2 xprv).trans
    (by decide)⟩

/-! ## Classification after a run of registrations -/

/-- C4: after any run of `Register` calls from the empty registry,
`IsPubKeyHashAddrID b` holds exactly when some call of the run that returned
`nil` had `PubKeyHashAddrID = b`. -/
theorem IsPubKeyHashAddrID_registerAll (ps : List Params) (b : Byte) :
    IsPubKeyHashAddrID (registerAll Registry.empty ps).2 b = true ↔
      ∃ p, (p, none) ∈ (registerAll Registry.empty ps).1 ∧ p.PubKeyHashAddrID = b := by
  unfold IsPubKeyHashAddrID
  rw [decide_eq_true_iff, mem_pubKeyHashAddrIDs_registerAll]
  simp [Registry.empty]

/-- C5: after any run of `Register` calls from the empty registry,
`IsScriptHashAddrID b` holds exactly when some call of the run that returned
`nil` had `ScriptHashAddrID = b`. -/
theorem IsScriptHashAddrID_registerAll (ps : List Params) (b : Byte) :
    IsScriptHashAddrID (registerAll Registry.empty ps).2 b = true ↔
      ∃ p, (p, none) ∈ (registerAll Registry.empty ps).1 ∧ p.ScriptHashAddrID = b := by
  unfold IsScriptHashAddrID
  rw [decide_eq_true_iff, mem_scriptHashAddrIDs_registerAll]
  simp [Registry.empty]

/-! ## The HD key id map -/

/-- C6, as stated, fails, in both ways the code allows.  First run: two
variables hold networks with different `Net`, the same `HDPrivateKeyID` `xprv`
and the public ids `xpub` and `tpub`; both calls return `nil`, and the lookup of
`xprv` then yields `tpub`, not the `xpub` of the first network.  Second run: one
variable is registered with `xprv` and `xpub`, then overwritten by the caller
with a network of another `Net`, private id `tprv` and public id `tpub`, and
registered again; both calls return `nil`, no later call has the private id
`xprv`, and the lookup of `xprv` yields `tpub`. -/
theorem HD_round_trip_shared_counterexample :
    ((runShared (World.empty twoVariables) [Step.register 0, Step.register 1]).1[0]? =
      some (sampleParams 1 "mil" 0x32 0x30 xprv xpub, 0, none) ∧
     (runShared (World.empty twoVariables) [Step.register 0, Step.register 1]).1[1]? =
      some (sampleParams 2 "temc2" 0x6f 0xc4 xprv tpub, 1, none) ∧
     (HDPrivateKeyToPublicKeyIDShared
        (runShared (World.empty twoVariables) [Step.register 0, Step.register 1]).2
        xprv.val).2 = none ∧
     sliceBytes (runShared (World.empty twoVariables) [Step.register 0, Step.register 1]).2
        (HDPrivateKeyToPublicKeyIDShared
          (runShared (World.empty twoVariables) [Step.register 0, Step.register 1]).2
          xprv.val).1 = tpub.val) ∧
    ((runShared sampleWorld
        [Step.register 0,
         Step.write (fun _ => sampleParams 2 "temc2" 0x6f 0xc4 tprv tpub),
         Step.register 0]).1[0]? =
      some (sampleParams 1 "mil" 0x32 0x30 xprv xpub, 0, none) ∧
     (runShared sampleWorld
        [Step.register 0,
         Step.write (fun _ => sampleParams 2 "temc2" 0x6f 0xc4 tprv tpub),
         Step.register 0]).1[1]? =
      some (sampleParams 2 "temc2" 0x6f 0xc4 tprv tpub, 0, none) ∧
     sliceBytes
        (runShared sampleWorld
          [Step.register 0,
           Step.write (fun _ => sampleParams 2 "temc2" 0x6f 0xc4 tprv tpub),
           Step.register 0]).2
        (HDPrivateKeyToPublicKeyIDShared
          (runShared sampleWorld
            [Step.register 0,
             Step.write (fun _ => sampleParams 2 "temc2" 0x6f 0xc4 tprv tpub),
             Step.register 0]).2
          xprv.val).1 = tpub.val) ∧
    tpub.val ≠ (sampleParams 1 "mil" 0x32 0x30 xprv xpub).HDPublicKeyID.val := by
  refine ⟨⟨?_, ?_, ?_, ?_⟩, ⟨?_, ?_, ?_⟩, ?_⟩
  · simp [runShared, RegisterShared, World.empty, twoVariables]
  · simp [runShared, RegisterShared, World.empty, twoVariables, sampleParams]
  · decide
  · decide
  · simp [runShared, RegisterShared, World.empty, sampleWorld]
  · simp [runShared, RegisterShared, World.empty, sampleWorld, sampleParams]
  · decide
  · decide

/-- C6, amended: in any run of `Register` calls and caller writes from the empty
registry, let `p` be the value registered by the accepted call number `i`.
Then there is a last accepted call `j ≥ i` whose value `q` had the
`HDPrivateKeyID` of `p`, made on the variable at `b`; the lookup of that private
id returns, with no error, the slice stored by that call, whose bytes are the
current contents of the `HDPublicKeyID` array of the variable at `b`.  So the
lookup returns the four bytes of `p.HDPublicKeyID` exactly when that array
holds them now; it does when the variable at `b` still holds `q` and `q` has
the `HDPublicKeyID` of `p`. -/
theorem HD_round_trip_shared (mem0 : Addr → Params) (steps : List Step) (i : Nat)
    (p : Params) (a : Addr)
    (hi : (runShared (World.empty mem0) steps).1[i]? = some (p, a, none)) :
    ∃ (j : Nat) (q : Params) (b : Addr), i ≤ j ∧
      (runShared (World.empty mem0) steps).1[j]? = some (q, b, none) ∧
      q.HDPrivateKeyID = p.HDPrivateKeyID ∧
      (∀ (j' : Nat) (q' : Params) (b' : Addr), j < j' →
        (runShared (World.empty mem0) steps).1[j']? = some (q', b', none) →
        q'.HDPrivateKeyID ≠ p.HDPrivateKeyID) ∧
      HDPrivateKeyToPublicKeyIDShared (runShared (World.empty mem0) steps).2
        p.HDPrivateKeyID.val = (some b, none) ∧
      sliceBytes (runShared (World.empty mem0) steps).2
        (HDPrivateKeyToPublicKeyIDShared (runShared (World.empty mem0) steps).2
          p.HDPrivateKeyID.val).1 =
        ((runShared (World.empty mem0) steps).2.mem b).HDPublicKeyID.val ∧
      (sliceBytes (runShared (World.empty mem0) steps).2
        (HDPrivateKeyToPublicKeyIDShared (runShared (World.empty mem0) steps).2
          p.HDPrivateKeyID.val).1 = p.HDPublicKeyID.val ↔
        ((runShared (World.empty mem0) steps).2.mem b).HDPublicKeyID = p.HDPublicKeyID) ∧
      ((runShared (World.empty mem0) steps).2.mem b = q →
        q.HDPublicKeyID = p.HDPublicKeyID →
        sliceBytes (runShared (World.empty mem0) steps).2
          (HDPrivateKeyToPublicKeyIDShared (runShared (World.empty mem0) steps).2
            p.HDPrivateKeyID.val).1 = p.HDPublicKeyID.val) := by
  have hbound : ∀ j, (∃ (q : Params) (b : Addr),
      (runShared (World.empty mem0) steps).1[j]? = some (q, b, none) ∧
      q.HDPrivateKeyID = p.HDPrivateKeyID) →
      j < (runShared (World.empty mem0) steps).1.length := by
    rintro j ⟨q, b, hj, _⟩
    by_contra hge
    rw [List.getElem?_eq_none (Nat.le_of_not_lt hge)] at hj
    cases hj
  obtain ⟨j, hij, ⟨q, b, hj, hq⟩, hmax⟩ :=
    exists_last_index _ _ hbound i ⟨p, a, hi, rfl⟩
  have hlast : ∀ (j' : Nat) (q' : Params) (b' : Addr), j < j' →
      (runShared (World.empty mem0) steps).1[j']? = some (q', b', none) →
      q'.HDPrivateKeyID ≠ p.HDPrivateKeyID :=
    fun j' q' b' hlt hj' hq' => hmax j' hlt ⟨q', b', hj', hq'⟩
  have hlookup := lookup_runShared_last steps (World.empty mem0) p.HDPrivateKeyID j q b hj hq
    hlast
  have hres : HDPrivateKeyToPublicKeyIDShared (runShared (World.empty mem0) steps).2
      p.HDPrivateKeyID.val = (some b, none) := by
    rw [HDPrivateKeyToPublicKeyIDShared_val, hlookup]
  refine ⟨j, q, b, hij, hj, hq, hlast, hres, ?_, ?_, ?_⟩
  · rw [hres]
    rfl
  · rw [hres]
    show ((runShared (World.empty mem0) steps).2.mem b).HDPublicKeyID.val =
      p.HDPublicKeyID.val ↔ _
    exact Subtype.ext_iff.symm
  · intro hmem hpub
    rw [hres]
    show ((runShared (World.empty mem0) steps).2.mem b).HDPublicKeyID.val = _
    rw [hmem, hpub]

/-- C6 amended, at a concrete input: the main network is registered from the
variable at `0`, then a network with the same HD ids and another `Net` from the
variable at `1`; the lookup of `xprv` returns the slice of that last call, and
its bytes are `xpub`, the public id of the first network. -/
theorem HD_round_trip_shared_witness :
    (runShared (World.empty sameIdVariables) [Step.register 0, Step.register 1]).1[0]? =
      some (sampleParams 1 "mil" 0x32 0x30 xprv xpub, 0, none) ∧
    ∃ b : Addr,
      HDPrivateKeyToPublicKeyIDShared
        (runShared (World.empty sameIdVariables) [Step.register 0, Step.register 1]).2
        xprv.val = (some b, none) ∧
      sliceBytes (runShared (World.empty sameIdVariables) [Step.register 0, Step.register 1]).2
        (some b) = xpub.val := by
  have hi : (runShared (World.empty sameIdVariables)
      [Step.register 0, Step.register 1]).1[0]? =
      some (sampleParams 1 "mil" 0x32 0x30 xprv xpub, 0, none) := by
    simp [runShared, RegisterShared, World.empty, sameIdVariables]
  obtain ⟨_, _, b, _, _, _, _, hres, hbytes, _, _⟩ :=
    HD_round_trip_shared sameIdVariables [Step.register 0, Step.register 1] 0
      (sampleParams 1 "mil" 0x32 0x30 xprv xpub) 0 hi
  have hone : HDPrivateKeyToPublicKeyIDShared
      (runShared (World.empty sameIdVariables) [Step.register 0, Step.register 1]).2
      xprv.val = (some 1, none) := by decide
  have hb : b = 1 := by
    have h := hres.symm.trans hone
    exact Option.some.inj (congrArg Prod.fst h)
  subst hb
  exact ⟨hi, 1, hone, by decide⟩

/-- C7: right after `Register` accepts `p`, the lookup of `p.HDPrivateKeyID`
returns the bytes of `p.HDPublicKeyID` whatever the map held there before, and
the lookup of every other slice (of any length) returns what it returned before. -/
theorem Register_HD_last_wins (s : Registry) (p : Params) (h : p.Net ∉ s.registeredNets) :
    HDPrivateKeyToPublicKeyID (Register s p).2 p.HDPrivateKeyID.val =
      (p.HDPublicKeyID.val, none) ∧
    ∀ id : List Byte, id ≠ p.HDPrivateKeyID.val →
      HDPrivateKeyToPublicKeyID (Register s p).2 id = HDPrivateKeyToPublicKeyID s id := by
  rw [Register_of_not_mem h]
  constructor
  · rw [HDPrivateKeyToPublicKeyID_val]
    simp [Finmap.lookup_insert]
  · intro id hid
    by_cases hlen : id.length ≠ 4
    · rw [HDPrivateKeyToPublicKeyID_of_length_ne _ _ hlen,
        HDPrivateKeyToPublicKeyID_of_length_ne _ _ hlen]
    · have hk : (⟨id, not_not.mp hlen⟩ : Bytes4) ≠ p.HDPrivateKeyID := by
        intro hEq
        exact hid (congrArg Subtype.val hEq)
      have h1 := HDPrivateKeyToPublicKeyID_val s ⟨id, not_not.mp hlen⟩
      have h2 := HDPrivateKeyToPublicKeyID_val
        { registeredNets := insert p.Net s.registeredNets
          pubKeyHashAddrIDs := insert p.PubKeyHashAddrID s.pubKeyHashAddrIDs
          scriptHashAddrIDs := insert p.ScriptHashAddrID s.scriptHashAddrIDs
          hdPrivToPubKeyIDs :=
            Finmap.insert p.HDPrivateKeyID p.HDPublicKeyID.val s.hdPrivToPubKeyIDs
          bech32SegwitPrefixes := insert (p.Bech32HRPSegwit ++ "1") s.bech32SegwitPrefixes }
        ⟨id, not_not.mp hlen⟩
      simp only [Finmap.lookup_insert_of_ne _ hk] at h2
      exact h2.trans h1.symm

/-- C7, at a concrete input: the registry maps `xprv` to `tpub`; a second network
maps `xprv` to `xpub`; the lookup of `xprv` changes, the lookup of `tprv` (an
error before) does not. -/
theorem Register_HD_last_wins_witness :
    let s := (Register Registry.empty (sampleParams 1 "mil" 0x32 0x30 xprv tpub)).2
    let p := sampleParams 2 "temc2" 0x6f 0xc4 xprv xpub
    p.Net ∉ s.registeredNets ∧
    HDPrivateKeyToPublicKeyID s xprv.val = (tpub.val, none) ∧
    HDPrivateKeyToPublicKeyID (Register s p).2 xprv.val = (xpub.val, none) ∧
    HDPrivateKeyToPublicKeyID (Register s p).2 tprv.val = HDPrivateKeyToPublicKeyID s tprv.val :=
  ⟨by decide, by decide,
   (Register_HD_last_wins _ (sampleParams 2 "temc2" 0x6f 0xc4 xprv xpub) (by decide)).1,
   (Register_HD_last_wins _ (sampleParams 2 "temc2" 0x6f 0xc4 xprv xpub) (by decide)).2
      tprv.val (by decide)⟩

/-- C8: in every state and for every slice `id`, the lookup returns an error
exactly when `id` is not 4 bytes long or its 4 bytes are no key of the HD map;
the failing result is then `(nil, ErrUnknownHDKeyID)`; every 3-byte slice is
refused, and so is every 5-byte slice that starts with a registered key. -/
theorem HDPrivateKeyToPublicKeyID_error_iff (s : Registry) (id : List Byte) :
    ((HDPrivateKeyToPublicKeyID s id).2 ≠ none ↔
      id.length ≠ 4 ∨ ∀ k : Bytes4, k.val = id → k ∉ s.hdPrivToPubKeyIDs) ∧
    (HDPrivateKeyToPublicKeyID s id = ([], some Error.ErrUnknownHDKeyID) ↔
      id.length ≠ 4 ∨ ∀ k : Bytes4, k.val = id → k ∉ s.hdPrivToPubKeyIDs) ∧
    ((HDPrivateKeyToPublicKeyID s id).2 ≠ none →
      HDPrivateKeyToPublicKeyID s id = ([], some Error.ErrUnknownHDKeyID)) ∧
    (id.length = 3 → HDPrivateKeyToPublicKeyID s id = ([], some Error.ErrUnknownHDKeyID)) ∧
    (∀ (k : Bytes4) (b : Byte), k ∈ s.hdPrivToPubKeyIDs → id = k.val ++ [b] →
      HDPrivateKeyToPublicKeyID s id = ([], some Error.ErrUnknownHDKeyID)) := by
  by_cases hlen : id.length ≠ 4
  · have hr := HDPrivateKeyToPublicKeyID_of_length_ne s id hlen
    refine ⟨?_, ?_, ?_, ?_, ?_⟩
    · rw [hr]; simp [hlen]
    · rw [hr]; simp [hlen]
    · intro _; exact hr
    · intro _; exact hr
    · intro _ _ _ _; exact hr
  · have hlen4 : id.length = 4 := not_not.mp hlen
    have hr := HDPrivateKeyToPublicKeyID_val s ⟨id, hlen4⟩
    have hkey : (∀ k : Bytes4, k.val = id → k ∉ s.hdPrivToPubKeyIDs) ↔
        (⟨id, hlen4⟩ : Bytes4) ∉ s.hdPrivToPubKeyIDs := by
      constructor
      · intro hall; exact hall _ rfl
      · intro hk k hkid
        have : k = ⟨id, hlen4⟩ := Subtype.ext hkid
        rw [this]; exact hk
    simp only [hlen, false_or, hkey]
    cases hlook : s.hdPrivToPubKeyIDs.lookup (⟨id, hlen4⟩ : Bytes4) with
    | none =>
      have hnot : (⟨id, hlen4⟩ : Bytes4) ∉ s.hdPrivToPubKeyIDs := Finmap.lookup_eq_none.mp hlook
      rw [hlook] at hr
      change HDPrivateKeyToPublicKeyID s id = ([], some Error.ErrUnknownHDKeyID) at hr
      refine ⟨?_, ?_, ?_, ?_, ?_⟩
      · rw [hr]; simp [hnot]
      · rw [hr]; simp [hnot]
      · intro _; exact hr
      · intro _; exact hr
      · intro _ _ _ _; exact hr
    | some v =>
      have hmem : (⟨id, hlen4⟩ : Bytes4) ∈ s.hdPrivToPubKeyIDs :=
        Finmap.mem_iff.mpr ⟨v, hlook⟩
      rw [hlook] at hr
      change HDPrivateKeyToPublicKeyID s id = (v, none) at hr
      refine ⟨?_, ?_, ?_, ?_, ?_⟩
      · rw [hr]; simp [hmem]
      · rw [hr]; simp [hmem]
      · rw [hr]; simp
      · intro h3; omega
      · intro k b _ hid
        have : id.length = 5 := by rw [hid]; simp [k.property]
        omega

/-! ## Bech32 prefixes -/

/-- C9, as stated, fails: a network registered with the upper-case human-readable
part `"MIL"` on the empty registry is accepted, yet `IsBech32SegwitPrefix "MIL1"`
is false afterwards: the stored key is `"MIL1"`, the key looked up is `"mil1"`. -/
theorem Bech32_upper_case_counterexample :
    (sampleParams 1 "MIL" 0x32 0x30 xprv xpub).Net ∉ Registry.empty.registeredNets ∧
    (Register Registry.empty (sampleParams 1 "MIL" 0x32 0x30 xprv xpub)).1 = none ∧
    "MIL1" ∈ (Register Registry.empty (sampleParams 1 "MIL" 0x32 0x30 xprv xpub)).2.bech32SegwitPrefixes ∧
    IsBech32SegwitPrefix (Register Registry.empty (sampleParams 1 "MIL" 0x32 0x30 xprv xpub)).2
      ((sampleParams 1 "MIL" 0x32 0x30 xprv xpub).Bech32HRPSegwit ++ "1") = false := by
  decide

/-- C9, amended: `Register` stores `h ++ "1"` as given, without lower-casing.
When the `Net` is not registered and the ASCII human-readable part `h` has no
upper-case letter (`ToLower h = h`), then after `Register` the query with
`h ++ "1"` is true, and so is the query with every ASCII string whose
lower-casing is that of `h ++ "1"`. -/
theorem Register_bech32_lower_case_part (s : Registry) (p : Params) (h : p.Net ∉ s.registeredNets)
    (_hascii : isASCII p.Bech32HRPSegwit = true)
    (hlow : ToLower p.Bech32HRPSegwit = p.Bech32HRPSegwit) :
    p.Bech32HRPSegwit ++ "1" ∈ (Register s p).2.bech32SegwitPrefixes ∧
    IsBech32SegwitPrefix (Register s p).2 (p.Bech32HRPSegwit ++ "1") = true ∧
    ∀ q : String, isASCII q = true → ToLower q = ToLower (p.Bech32HRPSegwit ++ "1") →
      IsBech32SegwitPrefix (Register s p).2 q = true := by
  have hstored : p.Bech32HRPSegwit ++ "1" ∈ (Register s p).2.bech32SegwitPrefixes := by
    rw [Register_of_not_mem h]
    exact Finset.mem_insert_self _ _
  have hl : ToLower (p.Bech32HRPSegwit ++ "1") = p.Bech32HRPSegwit ++ "1" := by
    rw [ToLower_append, hlow]
    rfl
  refine ⟨hstored, ?_, ?_⟩
  · rw [IsBech32SegwitPrefix_eq_true_iff, hl]
    exact hstored
  · intro q _ hq
    rw [IsBech32SegwitPrefix_eq_true_iff, hq, hl]
    exact hstored

/-- C9 amended, at a concrete input: the human-readable part `"mil"`. -/
theorem Register_bech32_lower_case_part_witness :
    let p := sampleParams 1 "mil" 0x32 0x30 xprv xpub
    p.Net ∉ Registry.empty.registeredNets ∧ isASCII p.Bech32HRPSegwit = true ∧
    ToLower p.Bech32HRPSegwit = p.Bech32HRPSegwit ∧
    IsBech32SegwitPrefix (Register Registry.empty p).2 "mil1" = true ∧
    IsBech32SegwitPrefix (Register Registry.empty p).2 "MiL1" = true :=
  ⟨by decide, by decide, by decide,
   (Register_bech32_lower_case_part Registry.empty (sampleParams 1 "mil" 0x32 0x30 xprv xpub)
      (by decide) (by decide) (by decide)).2.1,
   (Register_bech32_lower_case_part Registry.empty (sampleParams 1 "mil" 0x32 0x30 xprv xpub)
      (by decide) (by decide) (by decide)).2.2 "MiL1" (by decide) (by decide)⟩

/-- C10: for ASCII strings `p`, `q` with the same lower-casing, the query gives
the same answer on both, and the answer is true exactly when the lower-cased
string is in the stored set; with `"abc1"` stored, `"ABC1"` and `"aBc1"` are
accepted. -/
theorem IsBech32SegwitPrefix_case_insensitive (s : Registry) (p q : String)
    (_hp : isASCII p = true) (_hq : isASCII q = true) (hpq : ToLower p = ToLower q) :
    IsBech32SegwitPrefix s p = IsBech32SegwitPrefix s q ∧
    (IsBech32SegwitPrefix s p = true ↔ ToLower p ∈ s.bech32SegwitPrefixes) ∧
    (IsBech32SegwitPrefix s q = true ↔ ToLower p ∈ s.bech32SegwitPrefixes) ∧
    ("abc1" ∈ s.bech32SegwitPrefixes →
      IsBech32SegwitPrefix s "ABC1" = true ∧ IsBech32SegwitPrefix s "aBc1" = true) := by
  refine ⟨?_, ?_, ?_, ?_⟩
  · unfold IsBech32SegwitPrefix
    simp only [hpq]
  · exact IsBech32SegwitPrefix_eq_true_iff s p
  · rw [hpq]
    exact IsBech32SegwitPrefix_eq_true_iff s q
  · intro habc
    have h1 : ToLower "ABC1" = "abc1" := by decide
    have h2 : ToLower "aBc1" = "abc1" := by decide
    rw [IsBech32SegwitPrefix_eq_true_iff, IsBech32SegwitPrefix_eq_true_iff, h1, h2]
    exact ⟨habc, habc⟩

/-- C10, at a concrete input: `"abc1"` is stored; `"ABC1"` and `"aBc1"` have the
same lower-casing and are both accepted. -/
theorem IsBech32SegwitPrefix_case_insensitive_witness :
    let s := (Register Registry.empty (sampleParams 1 "abc" 0x32 0x30 xprv xpub)).2
    isASCII "ABC1" = true ∧ isASCII "aBc1" = true ∧ ToLower "ABC1" = ToLower "aBc1" ∧
    IsBech32SegwitPrefix s "ABC1" = IsBech32SegwitPrefix s "aBc1" ∧
    IsBech32SegwitPrefix s "ABC1" = true :=
  ⟨by decide, by decide, by decide,
   (IsBech32SegwitPrefix_case_insensitive _ "ABC1" "aBc1" (by decide) (by decide) (by decide)).1,
   ((IsBech32SegwitPrefix_case_insensitive
      (Register Registry.empty (sampleParams 1 "abc" 0x32 0x30 xprv xpub)).2
      "ABC1" "aBc1" (by decide) (by decide) (by decide)).2.1).mpr (by decide)⟩

/-! ## Shared bytes, panics and the default networks -/

/-- C11: two parameter sets with distinct, unregistered `Net` values are both
accepted; when they share the `PubKeyHashAddrID`, `IsPubKeyHashAddrID` of that
byte is true after either registration alone and after both; likewise for a
shared `ScriptHashAddrID` and `IsScriptHashAddrID`. -/
theorem Register_shared_address_id (s : Registry) (A B : Params)
    (hA : A.Net ∉ s.registeredNets) (hB : B.Net ∉ s.registeredNets) (hAB : A.Net ≠ B.Net) :
    (Register s A).1 = none ∧ (Register (Register s A).2 B).1 = none ∧
    (A.PubKeyHashAddrID = B.PubKeyHashAddrID →
      IsPubKeyHashAddrID (Register s A).2 A.PubKeyHashAddrID = true ∧
      IsPubKeyHashAddrID (Register s B).2 A.PubKeyHashAddrID = true ∧
      IsPubKeyHashAddrID (Register (Register s A).2 B).2 A.PubKeyHashAddrID = true) ∧
    (A.ScriptHashAddrID = B.ScriptHashAddrID →
      IsScriptHashAddrID (Register s A).2 A.ScriptHashAddrID = true ∧
      IsScriptHashAddrID (Register s B).2 A.ScriptHashAddrID = true ∧
      IsScriptHashAddrID (Register (Register s A).2 B).2 A.ScriptHashAddrID = true) := by
  have hB2 : B.Net ∉ (Register s A).2.registeredNets := by
    rw [registeredNets_Register, Finset.mem_insert, not_or]
    exact ⟨Ne.symm hAB, hB⟩
  refine ⟨(Register_fst_eq_none_iff s A).mpr hA, (Register_fst_eq_none_iff _ B).mpr hB2, ?_, ?_⟩
  · intro hv
    rw [Register_of_not_mem hB2, Register_of_not_mem hA, Register_of_not_mem hB]
    simp [IsPubKeyHashAddrID, hv]
  · intro hv
    rw [Register_of_not_mem hB2, Register_of_not_mem hA, Register_of_not_mem hB]
    simp [IsScriptHashAddrID, hv]

/-- C11, at a concrete input: two networks on the empty registry that share the
pubkey-hash id `0x30` and the script-hash id `0x05`. -/
theorem Register_shared_address_id_witness :
    let A := sampleParams 1 "abc" 0x30 0x05 xprv xpub
    let B := sampleParams 2 "xyz" 0x30 0x05 tprv tpub
    A.Net ∉ Registry.empty.registeredNets ∧ B.Net ∉ Registry.empty.registeredNets ∧
    A.Net ≠ B.Net ∧
    (Register Registry.empty A).1 = none ∧ (Register (Register Registry.empty A).2 B).1 = none ∧
    IsPubKeyHashAddrID (Register Registry.empty A).2 0x30 = true ∧
    IsPubKeyHashAddrID (Register (Register Registry.empty A).2 B).2 0x30 = true :=
  ⟨by decide, by decide, by decide,
   (Register_shared_address_id Registry.empty (sampleParams 1 "abc" 0x30 0x05 xprv xpub)
      (sampleParams 2 "xyz" 0x30 0x05 tprv tpub) (by decide) (by decide) (by decide)).1,
   (Register_shared_address_id Registry.empty (sampleParams 1 "abc" 0x30 0x05 xprv xpub)
      (sampleParams 2 "xyz" 0x30 0x05 tprv tpub) (by decide) (by decide) (by decide)).2.1,
   ((Register_shared_address_id Registry.empty (sampleParams 1 "abc" 0x30 0x05 xprv xpub)
      (sampleParams 2 "xyz" 0x30 0x05 tprv tpub) (by decide) (by decide) (by decide)).2.2.1
      rfl).1,
   ((Register_shared_address_id Registry.empty (sampleParams 1 "abc" 0x30 0x05 xprv xpub)
      (sampleParams 2 "xyz" 0x30 0x05 tprv tpub) (by decide) (by decide) (by decide)).2.2.1
      rfl).2.2⟩

/-- C13: whether `Register` accepts `p` or not, every registered `Net` stays
registered, every byte and every string accepted by the three boolean queries
stays accepted, and every slice whose HD lookup succeeded still succeeds. -/
theorem Register_grows (s : Registry) (p : Params) :
    s.registeredNets ⊆ (Register s p).2.registeredNets ∧
    (∀ b, IsPubKeyHashAddrID s b = true → IsPubKeyHashAddrID (Register s p).2 b = true) ∧
    (∀ b, IsScriptHashAddrID s b = true → IsScriptHashAddrID (Register s p).2 b = true) ∧
    (∀ q, IsBech32SegwitPrefix s q = true → IsBech32SegwitPrefix (Register s p).2 q = true) ∧
    (∀ id, (HDPrivateKeyToPublicKeyID s id).2 = none →
      (HDPrivateKeyToPublicKeyID (Register s p).2 id).2 = none) := by
  by_cases h : p.Net ∈ s.registeredNets
  · rw [Register_of_mem h]
    exact ⟨Finset.Subset.refl _, fun _ hb => hb, fun _ hb => hb, fun _ hq => hq,
      fun _ hid => hid⟩
  · rw [Register_of_not_mem h]
    refine ⟨Finset.subset_insert _ _, ?_, ?_, ?_, ?_⟩
    · intro b hb
      simp only [IsPubKeyHashAddrID, decide_eq_true_eq] at hb ⊢
      exact Finset.mem_insert_of_mem hb
    · intro b hb
      simp only [IsScriptHashAddrID, decide_eq_true_eq] at hb ⊢
      exact Finset.mem_insert_of_mem hb
    · intro q hq
      simp only [IsBech32SegwitPrefix, decide_eq_true_eq] at hq ⊢
      exact Finset.mem_insert_of_mem hq
    · intro id hid
      by_cases hlen : id.length ≠ 4
      · rw [HDPrivateKeyToPublicKeyID_of_length_ne _ _ hlen] at hid
        cases hid
      · have h1 := HDPrivateKeyToPublicKeyID_val s ⟨id, not_not.mp hlen⟩
        have h2 := HDPrivateKeyToPublicKeyID_val
          { registeredNets := insert p.Net s.registeredNets
            pubKeyHashAddrIDs := insert p.PubKeyHashAddrID s.pubKeyHashAddrIDs
            scriptHashAddrIDs := insert p.ScriptHashAddrID s.scriptHashAddrIDs
            hdPrivToPubKeyIDs :=
              Finmap.insert p.HDPrivateKeyID p.HDPublicKeyID.val s.hdPrivToPubKeyIDs
            bech32SegwitPrefixes := insert (p.Bech32HRPSegwit ++ "1") s.bech32SegwitPrefixes }
          ⟨id, not_not.mp hlen⟩
        change HDPrivateKeyToPublicKeyID s id = _ at h1
        change HDPrivateKeyToPublicKeyID _ id = _ at h2
        rw [h1] at hid
        rw [h2]
        by_cases hk : (⟨id, not_not.mp hlen⟩ : Bytes4) = p.HDPrivateKeyID
        · rw [hk, Finmap.lookup_insert]
        · rw [Finmap.lookup_insert_of_ne _ hk]
          exact hid

/-- C14: on the empty registry, after registering one network with
`PubKeyHashAddrID = 0x32`, HD private id `04 88 ad e4`, HD public id
`04 88 b2 1e` and human-readable part `"mil"`, the byte `0x32` is a pubkey-hash
id, `0x6f` is not, the HD lookup of the private id returns the public id with no
error, and `"mil1"` is a Bech32 prefix. -/
theorem Register_scenario (p : Params) (hpk : p.PubKeyHashAddrID = 0x32)
    (hprv : p.HDPrivateKeyID = xprv) (hpub : p.HDPublicKeyID = xpub)
    (hhrp : p.Bech32HRPSegwit = "mil") :
    (Register Registry.empty p).1 = none ∧
    IsPubKeyHashAddrID (Register Registry.empty p).2 0x32 = true ∧
    IsPubKeyHashAddrID (Register Registry.empty p).2 0x6f = false ∧
    HDPrivateKeyToPublicKeyID (Register Registry.empty p).2 [0x04, 0x88, 0xad, 0xe4] =
      ([0x04, 0x88, 0xb2, 0x1e], none) ∧
    IsBech32SegwitPrefix (Register Registry.empty p).2 "mil1" = true := by
  have hnet : p.Net ∉ Registry.empty.registeredNets := by simp [Registry.empty]
  refine ⟨(Register_fst_eq_none_iff _ p).mpr hnet, ?_, ?_, ?_, ?_⟩
  · rw [Register_of_not_mem hnet]
    simp [IsPubKeyHashAddrID, hpk]
  · rw [Register_of_not_mem hnet]
    simp only [IsPubKeyHashAddrID, hpk, Registry.empty]
    decide
  · have := HDPrivateKeyToPublicKeyID_val (Register Registry.empty p).2 xprv
    rw [Register_of_not_mem hnet, hprv, hpub, Finmap.lookup_insert] at this
    rw [Register_of_not_mem hnet, hprv, hpub]
    exact this
  · rw [Register_of_not_mem hnet, IsBech32SegwitPrefix_eq_true_iff, hhrp]
    have : ToLower "mil1" = "mil" ++ "1" := by decide
    rw [this]
    exact Finset.mem_insert_self _ _

/-- C14, at a concrete input: the table `MainNetParams`. -/
theorem Register_scenario_witness :
    IsPubKeyHashAddrID (Register Registry.empty (MainNetParams sampleWire)).2 0x32 = true ∧
    IsPubKeyHashAddrID (Register Registry.empty (MainNetParams sampleWire)).2 0x6f = false ∧
    HDPrivateKeyToPublicKeyID (Register Registry.empty (MainNetParams sampleWire)).2
      [0x04, 0x88, 0xad, 0xe4] = ([0x04, 0x88, 0xb2, 0x1e], none) ∧
    IsBech32SegwitPrefix (Register Registry.empty (MainNetParams sampleWire)).2 "mil1" = true :=
  (Register_scenario (MainNetParams sampleWire) rfl rfl rfl rfl).2

/-- C15: with pairwise distinct `wire` constants, `init` returns without panic,
and afterwards `Register` of any of the four default parameter sets returns
`ErrDuplicateNet` and leaves the state as it is. -/
theorem init_registers_defaults (w : WireNets) (h : w.distinct) :
    (init w).1 = none ∧
    ∀ p ∈ [MainNetParams w, TestNet4Params w, RegressionNetParams w, SimNetParams w],
      Register (init w).2 p = (some Error.ErrDuplicateNet, (init w).2) := by
  refine ⟨(init_fst_eq_none_iff w).mpr h, ?_⟩
  intro p hp
  apply Register_of_mem
  rw [registeredNets_init w h]
  simp only [List.mem_cons, List.mem_singleton, List.not_mem_nil, or_false] at hp
  rcases hp with rfl | rfl | rfl | rfl <;>
    simp [MainNetParams, TestNet4Params, RegressionNetParams, SimNetParams]

/-- C15, at a concrete input: four distinct sample magics. -/
theorem init_registers_defaults_witness :
    sampleWire.distinct ∧ (init sampleWire).1 = none ∧
    Register (init sampleWire).2 (RegressionNetParams sampleWire) =
      (some Error.ErrDuplicateNet, (init sampleWire).2) :=
  ⟨by decide,
   (init_registers_defaults sampleWire (by decide)).1,
   (init_registers_defaults sampleWire (by decide)).2 _
      (List.mem_cons_of_mem _ (List.mem_cons_of_mem _ (List.mem_cons_self _ _)))⟩

/-- C17: `mustRegister` is `Register` up to the failure mode.  With an
unregistered `Net` it returns normally and leaves the state `Register` leaves;
with a registered `Net` it panics, the message ends with the text of
`ErrDuplicateNet`, and the state is unchanged. -/
theorem mustRegister_eq_Register (s : Registry) (p : Params) :
    (p.Net ∉ s.registeredNets →
      (Register s p).1 = none ∧ mustRegister s p = (none, (Register s p).2)) ∧
    (p.Net ∈ s.registeredNets →
      (Register s p).1 = some Error.ErrDuplicateNet ∧
      mustRegister s p =
        (some ("failed to register network: " ++ Error.ErrDuplicateNet.text), s) ∧
      (mustRegister s p).1 = some "failed to register network: duplicate Litecoin network" ∧
      (mustRegister s p).2 = s) ∧
    (mustRegister s p).2 = (Register s p).2 ∧
    ((mustRegister s p).1 = none ↔ (Register s p).1 = none) := by
  by_cases h : p.Net ∈ s.registeredNets
  · have hm := mustRegister_of_mem h
    have hr := Register_of_mem h
    refine ⟨fun hn => absurd h hn, fun _ => ⟨by rw [hr], hm, ?_, by rw [hm]⟩, ?_, ?_⟩
    · rw [hm]; rfl
    · rw [hm, hr]
    · rw [hm, hr]; simp
  · have hm := mustRegister_of_not_mem h
    refine ⟨fun _ => ⟨(Register_fst_eq_none_iff s p).mpr h, hm⟩, fun hn => absurd hn h, ?_, ?_⟩
    · rw [hm]
    · rw [hm]
      simp [(Register_fst_eq_none_iff s p).mpr h]

/-! ## Whole histories -/

/-- C12: in any run of `Register` calls from the empty registry, a call returns
`nil` exactly when no earlier call of the run had the same `Net`; no two calls
that returned `nil` share a `Net`; the number of calls that returned `nil` is
the number of distinct `Net` values of the run; and the registered nets at the
end are exactly those values. -/
theorem registerAll_unique_nets (ps : List Params) :
    (∀ (i : Nat) (p : Params) (r : Option Error),
      (registerAll Registry.empty ps).1[i]? = some (p, r) →
      (r = none ↔ ∀ (j : Nat) (q : Params), j < i → ps[j]? = some q → q.Net ≠ p.Net)) ∧
    (∀ (i j : Nat) (p q : Params), i < j →
      (registerAll Registry.empty ps).1[i]? = some (p, none) →
      (registerAll Registry.empty ps).1[j]? = some (q, none) → p.Net ≠ q.Net) ∧
    (registerAll Registry.empty ps).1.countP (fun x => x.2.isNone) =
      (ps.map Params.Net).toFinset.card ∧
    (registerAll Registry.empty ps).2.registeredNets = (ps.map Params.Net).toFinset := by
  have hfirst : ∀ (i : Nat) (p : Params) (r : Option Error),
      (registerAll Registry.empty ps).1[i]? = some (p, r) →
      (r = none ↔ ∀ (j : Nat) (q : Params), j < i → ps[j]? = some q → q.Net ≠ p.Net) := by
    intro i p r hi
    rw [registerAll_getElem_none_iff ps Registry.empty i p r hi]
    simp [Registry.empty]
  refine ⟨hfirst, ?_, ?_, ?_⟩
  · intro i j p q hij hi hj
    have hpi : ps[i]? = some p := by
      have := congrArg (fun l => l[i]?) (registerAll_fst_map ps Registry.empty)
      simp only [List.getElem?_map, hi, Option.map_some'] at this
      exact this.symm
    exact (hfirst j q none hj).mp rfl i p hij hpi
  · rw [registerAll_countP]
    simp [Registry.empty]
  · rw [registeredNets_registerAll]
    simp [Registry.empty]

/-! ## Order of registration -/

/-- C18, as stated, fails: `a` and `b` have distinct `Net` values, the same
`HDPrivateKeyID` and different `HDPublicKeyID`, but the `Net` of `a` is
registered already, so `a` is refused in both orders and the two HD maps hold
the same entry at the shared key: they do not differ there. -/
theorem Register_order_counterexample :
    (sampleParams 1 "mil" 0x32 0x30 xprv xpub).Net ≠
      (sampleParams 2 "temc2" 0x6f 0xc4 xprv tpub).Net ∧
    (sampleParams 1 "mil" 0x32 0x30 xprv xpub).HDPrivateKeyID =
      (sampleParams 2 "temc2" 0x6f 0xc4 xprv tpub).HDPrivateKeyID ∧
    (sampleParams 1 "mil" 0x32 0x30 xprv xpub).HDPublicKeyID ≠
      (sampleParams 2 "temc2" 0x6f 0xc4 xprv tpub).HDPublicKeyID ∧
    (Register
        (Register (Register Registry.empty (sampleParams 1 "sltc" 0x3f 0x7b sprv spub)).2
          (sampleParams 1 "mil" 0x32 0x30 xprv xpub)).2
        (sampleParams 2 "temc2" 0x6f 0xc4 xprv tpub)).2.hdPrivToPubKeyIDs.lookup xprv =
    (Register
        (Register (Register Registry.empty (sampleParams 1 "sltc" 0x3f 0x7b sprv spub)).2
          (sampleParams 2 "temc2" 0x6f 0xc4 xprv tpub)).2
        (sampleParams 1 "mil" 0x32 0x30 xprv xpub)).2.hdPrivToPubKeyIDs.lookup xprv := by
  decide

/-- C18, amended: for parameter sets `a`, `b` with distinct `Net` values, the
two orders of registration give each call the same result and leave the same
registered nets, pubkey-hash ids, script-hash ids and Bech32 prefixes.  The HD
maps of the two orders are equal unless both `Net` values were unregistered,
`a.HDPrivateKeyID = b.HDPrivateKeyID` and `a.HDPublicKeyID ≠ b.HDPublicKeyID`;
in that case they differ at that key: each order holds the public id of the
call made last. -/
theorem Register_order (s : Registry) (a b : Params) (hab : a.Net ≠ b.Net) :
    (Register s a).1 = (Register (Register s b).2 a).1 ∧
    (Register (Register s a).2 b).1 = (Register s b).1 ∧
    (Register (Register s a).2 b).2.registeredNets =
      (Register (Register s b).2 a).2.registeredNets ∧
    (Register (Register s a).2 b).2.pubKeyHashAddrIDs =
      (Register (Register s b).2 a).2.pubKeyHashAddrIDs ∧
    (Register (Register s a).2 b).2.scriptHashAddrIDs =
      (Register (Register s b).2 a).2.scriptHashAddrIDs ∧
    (Register (Register s a).2 b).2.bech32SegwitPrefixes =
      (Register (Register s b).2 a).2.bech32SegwitPrefixes ∧
    (¬ (a.Net ∉ s.registeredNets ∧ b.Net ∉ s.registeredNets ∧
        a.HDPrivateKeyID = b.HDPrivateKeyID ∧ a.HDPublicKeyID ≠ b.HDPublicKeyID) →
      (Register (Register s a).2 b).2.hdPrivToPubKeyIDs =
        (Register (Register s b).2 a).2.hdPrivToPubKeyIDs) ∧
    (a.Net ∉ s.registeredNets → b.Net ∉ s.registeredNets →
      a.HDPrivateKeyID = b.HDPrivateKeyID → a.HDPublicKeyID ≠ b.HDPublicKeyID →
      (Register (Register s a).2 b).2.hdPrivToPubKeyIDs.lookup a.HDPrivateKeyID =
        some b.HDPublicKeyID.val ∧
      (Register (Register s b).2 a).2.hdPrivToPubKeyIDs.lookup a.HDPrivateKeyID =
        some a.HDPublicKeyID.val ∧
      (Register (Register s a).2 b).2.hdPrivToPubKeyIDs.lookup a.HDPrivateKeyID ≠
        (Register (Register s b).2 a).2.hdPrivToPubKeyIDs.lookup a.HDPrivateKeyID) := by
  have hba : b.Net ≠ a.Net := Ne.symm hab
  have ha' : a.Net ∈ (Register s b).2.registeredNets ↔ a.Net ∈ s.registeredNets := by
    rw [registeredNets_Register, Finset.mem_insert]
    simp [hab]
  have hb' : b.Net ∈ (Register s a).2.registeredNets ↔ b.Net ∈ s.registeredNets := by
    rw [registeredNets_Register, Finset.mem_insert]
    simp [hba]
  by_cases ha : a.Net ∈ s.registeredNets
  · by_cases hb : b.Net ∈ s.registeredNets
    · have h1 := Register_of_mem ha
      have h2 := Register_of_mem hb
      simp only [h1, h2, and_self, implies_true, true_and]
      intro hn
      exact absurd ha hn
    · have h1 := Register_of_mem ha
      have h2 := Register_of_not_mem hb
      have h3 := Register_of_mem (ha'.mpr ha)
      rw [h2] at h3
      simp only [h1, h2, h3, and_self, implies_true, true_and]
      intro hn
      exact absurd ha hn
  · by_cases hb : b.Net ∈ s.registeredNets
    · have h1 := Register_of_not_mem ha
      have h2 := Register_of_mem hb
      have h3 := Register_of_mem (hb'.mpr hb)
      rw [h1] at h3
      simp only [h1, h2, h3, and_self, implies_true, true_and]
      intro _ hn
      exact absurd hb hn
    · have h1 := Register_of_not_mem ha
      have h2 := Register_of_not_mem hb
      have h3 := Register_of_not_mem (mt hb'.mp hb)
      have h4 := Register_of_not_mem (mt ha'.mp ha)
      rw [h1] at h3
      rw [h2] at h4
      simp only [h1, h2, h3, h4, true_and]
      refine ⟨Finset.Insert.comm _ _ _, Finset.Insert.comm _ _ _, Finset.Insert.comm _ _ _,
        Finset.Insert.comm _ _ _, ?_, ?_⟩
      · intro hn
        by_cases hk : a.HDPrivateKeyID = b.HDPrivateKeyID
        · have hv : a.HDPublicKeyID = b.HDPublicKeyID := by
            by_contra hne
            exact hn ⟨ha, hb, hk, hne⟩
          rw [hk, hv]
        · exact Finmap.insert_insert_of_ne _ hk
      · intro _ _ hk hv
        refine ⟨?_, ?_, ?_⟩
        · rw [hk, Finmap.lookup_insert]
        · rw [Finmap.lookup_insert]
        · rw [Finmap.lookup_insert]
          rw [hk, Finmap.lookup_insert]
          intro hEq
          exact hv (Subtype.ext (Option.some.inj hEq)).symm

/-- C18 amended, at a concrete input: two networks on the empty registry with
the same HD private id and different public ids. -/
theorem Register_order_witness :
    let a := sampleParams 1 "mil" 0x32 0x30 xprv xpub
    let b := sampleParams 2 "temc2" 0x6f 0xc4 xprv tpub
    a.Net ≠ b.Net ∧
    (Register (Register Registry.empty a).2 b).2.pubKeyHashAddrIDs =
      (Register (Register Registry.empty b).2 a).2.pubKeyHashAddrIDs ∧
    (Register (Register Registry.empty a).2 b).2.hdPrivToPubKeyIDs.lookup xprv ≠
      (Register (Register Registry.empty b).2 a).2.hdPrivToPubKeyIDs.lookup xprv :=
  ⟨by decide,
   (Register_order Registry.empty (sampleParams 1 "mil" 0x32 0x30 xprv xpub)
      (sampleParams 2 "temc2" 0x6f 0xc4 xprv tpub) (by decide)).2.2.2.1,
   ((Register_order Registry.empty (sampleParams 1 "mil" 0x32 0x30 xprv xpub)
      (sampleParams 2 "temc2" 0x6f 0xc4 xprv tpub) (by decide)).2.2.2.2.2.2.2
      (by decide) (by decide) (by decide) (by decide)).2.2⟩

/-! ## The registry of the default networks -/

/-- C19: in the registry that `init` leaves, for each of the four default
parameter sets the HD lookup of its private id returns its public id, although
`TestNet4Params` and `RegressionNetParams` share the private id and the later
registration overwrites the entry of the earlier one. -/
theorem init_HD_round_trip (w : WireNets) (hinit : (init w).1 = none) :
    (TestNet4Params w).HDPrivateKeyID = (RegressionNetParams w).HDPrivateKeyID ∧
    ∀ p ∈ [MainNetParams w, TestNet4Params w, RegressionNetParams w, SimNetParams w],
      HDPrivateKeyToPublicKeyID (init w).2 p.HDPrivateKeyID.val = (p.HDPublicKeyID.val, none) := by
  have h := (init_fst_eq_none_iff w).mp hinit
  refine ⟨rfl, ?_⟩
  intro p hp
  rw [HDPrivateKeyToPublicKeyID_val, hdPrivToPubKeyIDs_init w h]
  simp only [List.mem_cons, List.mem_singleton, List.not_mem_nil, or_false] at hp
  rcases hp with rfl | rfl | rfl | rfl
  · simp only [MainNetParams]; decide
  · simp only [TestNet4Params]; decide
  · simp only [RegressionNetParams]; decide
  · simp only [SimNetParams]; decide

/-- C19, at a concrete input: four distinct sample magics, the lookup of the
private id shared by the two test networks. -/
theorem init_HD_round_trip_witness :
    (init sampleWire).1 = none ∧
    HDPrivateKeyToPublicKeyID (init sampleWire).2 tprv.val = (tpub.val, none) :=
  ⟨by decide,
   (init_HD_round_trip sampleWire (by decide)).2 (TestNet4Params sampleWire)
      (List.mem_cons_of_mem _ (List.mem_cons_self _ _))⟩

/-- C20: in the registry that `init` leaves, a string is a Bech32 prefix exactly
when its lower-casing by `strings.ToLower` is one of `"mil1"`, `"temc21"`,
`"remc21"`, `"sltc1"`.  Go strings (`σ`) and the library function are
parameters; of the function only its behaviour on ASCII strings is assumed
(`literal` turns an ASCII string into a Go string).  The four stored strings are
accepted, the bare `"mil"` is refused, and so are `"tltc1"`, `"tb1"` and
`"lsb1"`. -/
theorem init_bech32_prefixes (w : WireNets) (hinit : (init w).1 = none)
    {σ : Type} (stringsToLower : σ → String) (literal : String → σ)
    (hascii : ∀ s : String, isASCII s = true → stringsToLower (literal s) = ToLower s) :
    (∀ q : σ, IsBech32SegwitPrefixOf stringsToLower (init w).2 q = true ↔
      stringsToLower q = "mil1" ∨ stringsToLower q = "temc21" ∨
        stringsToLower q = "remc21" ∨ stringsToLower q = "sltc1") ∧
    IsBech32SegwitPrefixOf stringsToLower (init w).2 (literal "mil1") = true ∧
    IsBech32SegwitPrefixOf stringsToLower (init w).2 (literal "temc21") = true ∧
    IsBech32SegwitPrefixOf stringsToLower (init w).2 (literal "remc21") = true ∧
    IsBech32SegwitPrefixOf stringsToLower (init w).2 (literal "sltc1") = true ∧
    IsBech32SegwitPrefixOf stringsToLower (init w).2 (literal "mil") = false ∧
    IsBech32SegwitPrefixOf stringsToLower (init w).2 (literal "tltc1") = false ∧
    IsBech32SegwitPrefixOf stringsToLower (init w).2 (literal "tb1") = false ∧
    IsBech32SegwitPrefixOf stringsToLower (init w).2 (literal "lsb1") = false ∧
    (∀ q : String, isASCII q = true →
      IsBech32SegwitPrefixOf stringsToLower (init w).2 (literal q) =
        IsBech32SegwitPrefix (init w).2 q) := by
  have h := (init_fst_eq_none_iff w).mp hinit
  have hset := bech32SegwitPrefixes_init w h
  have l1 : stringsToLower (literal "mil1") = "mil1" :=
    (hascii _ (by decide)).trans (by decide)
  have l2 : stringsToLower (literal "temc21") = "temc21" :=
    (hascii _ (by decide)).trans (by decide)
  have l3 : stringsToLower (literal "remc21") = "remc21" :=
    (hascii _ (by decide)).trans (by decide)
  have l4 : stringsToLower (literal "sltc1") = "sltc1" :=
    (hascii _ (by decide)).trans (by decide)
  have l5 : stringsToLower (literal "mil") = "mil" :=
    (hascii _ (by decide)).trans (by decide)
  have l6 : stringsToLower (literal "tltc1") = "tltc1" :=
    (hascii _ (by decide)).trans (by decide)
  have l7 : stringsToLower (literal "tb1") = "tb1" :=
    (hascii _ (by decide)).trans (by decide)
  have l8 : stringsToLower (literal "lsb1") = "lsb1" :=
    (hascii _ (by decide)).trans (by decide)
  refine ⟨?_, ?_, ?_, ?_, ?_, ?_, ?_, ?_, ?_, ?_⟩
  · intro q
    simp only [IsBech32SegwitPrefixOf, decide_eq_true_eq, hset, Finset.mem_insert,
      Finset.mem_singleton]
  · simp only [IsBech32SegwitPrefixOf, hset, l1]; decide
  · simp only [IsBech32SegwitPrefixOf, hset, l2]; decide
  · simp only [IsBech32SegwitPrefixOf, hset, l3]; decide
  · simp only [IsBech32SegwitPrefixOf, hset, l4]; decide
  · simp only [IsBech32SegwitPrefixOf, hset, l5]; decide
  · simp only [IsBech32SegwitPrefixOf, hset, l6]; decide
  · simp only [IsBech32SegwitPrefixOf, hset, l7]; decide
  · simp only [IsBech32SegwitPrefixOf, hset, l8]; decide
  · intro q hq
    simp only [IsBech32SegwitPrefixOf, IsBech32SegwitPrefix, hascii q hq]

/-- C20, at a concrete input: four distinct sample magics, Go strings taken as
`String` and the library function as its ASCII model; `"MIL1"` is accepted and
`"mil"` is refused. -/
theorem init_bech32_prefixes_witness :
    (init sampleWire).1 = none ∧
    (∀ s : String, isASCII s = true → ToLower (id s) = ToLower s) ∧
    IsBech32SegwitPrefixOf ToLower (init sampleWire).2 "MIL1" = true ∧
    IsBech32SegwitPrefixOf ToLower (init sampleWire).2 "mil" = false :=
  ⟨by decide, fun _ _ => rfl,
   ((init_bech32_prefixes sampleWire (by decide) ToLower id (fun _ _ => rfl)).1 "MIL1").mpr
      (Or.inl (by decide)),
   (init_bech32_prefixes sampleWire (by decide) ToLower id (fun _ _ => rfl)).2.2.2.2.2.1⟩

/-! ## Sharing of the HD public id with the caller -/

/-- C16, as stated, fails: a network is registered from the variable at address
`0`; the lookup of its private id returns its public id `xpub`.  The caller
then assigns `tpub` to `HDPublicKeyID` of that variable, and the same lookup
returns `tpub`; or the caller writes one byte through the slice that the lookup
returned, and the next lookup returns the changed bytes. -/
theorem Register_shares_counterexample :
    (RegisterShared sampleWorld 0).1 = none ∧
    HDPrivateKeyToPublicKeyIDShared (RegisterShared sampleWorld 0).2 xprv.val = (some 0, none) ∧
    sliceBytes (RegisterShared sampleWorld 0).2
      (HDPrivateKeyToPublicKeyIDShared (RegisterShared sampleWorld 0).2 xprv.val).1 = xpub.val ∧
    sliceBytes (assignHDPublicKeyID (RegisterShared sampleWorld 0).2 0 tpub)
      (HDPrivateKeyToPublicKeyIDShared
        (assignHDPublicKeyID (RegisterShared sampleWorld 0).2 0 tpub) xprv.val).1 = tpub.val ∧
    sliceBytes (writeSlice (RegisterShared sampleWorld 0).2 0 3 0xff)
      (HDPrivateKeyToPublicKeyIDShared
        (writeSlice (RegisterShared sampleWorld 0).2 0 3 0xff) xprv.val).1 =
      [0x04, 0x88, 0xb2, 0xff] ∧
    tpub.val ≠ xpub.val := by
  decide

/-- C16, amended: after `Register` accepts the variable at address `a`, whatever
the caller writes to memory afterwards (`mem'`), the three boolean queries and
the slice and error returned by every HD lookup are unchanged; the lookup of the
private id the variable had at registration returns the slice over its
`HDPublicKeyID` array, whose bytes are the current contents of that array; so as
long as that array holds what it held at registration, the lookup returns the
public id of registration time, whatever else was changed. -/
theorem RegisterShared_frame (w : World) (a : Addr) (h : (w.mem a).Net ∉ w.registeredNets)
    (mem' : Addr → Params) :
    (RegisterShared w a).1 = none ∧
    (∀ b, IsPubKeyHashAddrIDShared { (RegisterShared w a).2 with mem := mem' } b =
      IsPubKeyHashAddrIDShared (RegisterShared w a).2 b) ∧
    (∀ b, IsScriptHashAddrIDShared { (RegisterShared w a).2 with mem := mem' } b =
      IsScriptHashAddrIDShared (RegisterShared w a).2 b) ∧
    (∀ q, IsBech32SegwitPrefixShared { (RegisterShared w a).2 with mem := mem' } q =
      IsBech32SegwitPrefixShared (RegisterShared w a).2 q) ∧
    (∀ id, HDPrivateKeyToPublicKeyIDShared { (RegisterShared w a).2 with mem := mem' } id =
      HDPrivateKeyToPublicKeyIDShared (RegisterShared w a).2 id) ∧
    HDPrivateKeyToPublicKeyIDShared { (RegisterShared w a).2 with mem := mem' }
      (w.mem a).HDPrivateKeyID.val = (some a, none) ∧
    sliceBytes { (RegisterShared w a).2 with mem := mem' } (some a) =
      (mem' a).HDPublicKeyID.val ∧
    ((mem' a).HDPublicKeyID = (w.mem a).HDPublicKeyID →
      sliceBytes { (RegisterShared w a).2 with mem := mem' }
        (HDPrivateKeyToPublicKeyIDShared { (RegisterShared w a).2 with mem := mem' }
          (w.mem a).HDPrivateKeyID.val).1 = (w.mem a).HDPublicKeyID.val) := by
  have hlook : HDPrivateKeyToPublicKeyIDShared { (RegisterShared w a).2 with mem := mem' }
      (w.mem a).HDPrivateKeyID.val = (some a, none) := by
    rw [HDPrivateKeyToPublicKeyIDShared_val, RegisterShared_of_not_mem h]
    simp [Finmap.lookup_insert]
  refine ⟨?_, fun _ => rfl, fun _ => rfl, fun _ => rfl, fun _ => rfl, hlook, rfl, ?_⟩
  · rw [RegisterShared_of_not_mem h]
  · intro hsame
    rw [hlook]
    show (mem' a).HDPublicKeyID.val = _
    rw [hsame]

/-- C16 amended, at a concrete input: after the registration every variable is
overwritten with another network that keeps only the public id `xpub`; the
lookup of `xprv` still returns `xpub`. -/
theorem RegisterShared_frame_witness :
    (sampleWorld.mem 0).Net ∉ sampleWorld.registeredNets ∧
    sliceBytes
      { (RegisterShared sampleWorld 0).2 with
        mem := fun _ => sampleParams 9 "zzz" 0x00 0x01 tprv xpub }
      (HDPrivateKeyToPublicKeyIDShared
        { (RegisterShared sampleWorld 0).2 with
          mem := fun _ => sampleParams 9 "zzz" 0x00 0x01 tprv xpub }
        xprv.val).1 = xpub.val :=
  ⟨by decide,
   (RegisterShared_frame sampleWorld 0 (by decide)
      (fun _ => sampleParams 9 "zzz" 0x00 0x01 tprv xpub)).2.2.2.2.2.2.2 rfl⟩

/-! ## Address bytes and consensus constants of the default networks -/

/-- C21: in the registry that `init` leaves, the pubkey-hash ids are exactly
`0x32`, `0x6f`, `0x3f`, the script-hash ids are exactly `0x30`, `0xc4`, `0x7b`,
and no byte is accepted by both `IsPubKeyHashAddrID` and `IsScriptHashAddrID`. -/
theorem init_address_ids (w : WireNets) (hinit : (init w).1 = none) :
    (init w).2.pubKeyHashAddrIDs = {0x32, 0x6f, 0x3f} ∧
    (init w).2.scriptHashAddrIDs = {0x30, 0xc4, 0x7b} ∧
    (∀ b : Byte, IsPubKeyHashAddrID (init w).2 b = true ↔ b = 0x32 ∨ b = 0x6f ∨ b = 0x3f) ∧
    (∀ b : Byte, IsScriptHashAddrID (init w).2 b = true ↔ b = 0x30 ∨ b = 0xc4 ∨ b = 0x7b) ∧
    (∀ b : Byte, ¬ (IsPubKeyHashAddrID (init w).2 b = true ∧
      IsScriptHashAddrID (init w).2 b = true)) := by
  have h := (init_fst_eq_none_iff w).mp hinit
  have hpk : (init w).2.pubKeyHashAddrIDs = {0x32, 0x6f, 0x3f} := by
    rw [init_snd_of_distinct w h]
    show (insert 0x3f (insert 0x6f (insert 0x6f (insert 0x32 ∅))) : Finset Byte) =
      {0x32, 0x6f, 0x3f}
    decide
  have hsh : (init w).2.scriptHashAddrIDs = {0x30, 0xc4, 0x7b} := by
    rw [init_snd_of_distinct w h]
    show (insert 0x7b (insert 0xc4 (insert 0xc4 (insert 0x30 ∅))) : Finset Byte) =
      {0x30, 0xc4, 0x7b}
    decide
  have hpk' : ∀ b : Byte, IsPubKeyHashAddrID (init w).2 b = true ↔
      b = 0x32 ∨ b = 0x6f ∨ b = 0x3f := by
    intro b
    simp only [IsPubKeyHashAddrID, decide_eq_true_eq, hpk, Finset.mem_insert,
      Finset.mem_singleton]
  have hsh' : ∀ b : Byte, IsScriptHashAddrID (init w).2 b = true ↔
      b = 0x30 ∨ b = 0xc4 ∨ b = 0x7b := by
    intro b
    simp only [IsScriptHashAddrID, decide_eq_true_eq, hsh, Finset.mem_insert,
      Finset.mem_singleton]
  refine ⟨hpk, hsh, hpk', hsh', ?_⟩
  intro b hb
  have h1 := (hpk' b).mp hb.1
  have h2 := (hsh' b).mp hb.2
  rcases h1 with rfl | rfl | rfl <;> revert h2 <;> decide

/-- C21, at a concrete input: four distinct sample magics; `0x6f` is a
pubkey-hash id and not a script-hash id. -/
theorem init_address_ids_witness :
    (init sampleWire).1 = none ∧
    IsPubKeyHashAddrID (init sampleWire).2 0x6f = true ∧
    ¬ (IsPubKeyHashAddrID (init sampleWire).2 0x6f = true ∧
      IsScriptHashAddrID (init sampleWire).2 0x6f = true) :=
  ⟨by decide,
   ((init_address_ids sampleWire (by decide)).2.2.1 0x6f).mpr (Or.inr (Or.inl rfl)),
   (init_address_ids sampleWire (by decide)).2.2.2.2 0x6f⟩

/-- C22, on the tables: `4 × RuleChangeActivationThreshold = 3 ×
MinerConfirmationWindow` holds for `MainNetParams`, `RegressionNetParams` and
`SimNetParams`, and fails for `TestNet4Params`, where both constants are `15`
(`60` against `45`). -/
theorem RuleChangeActivationThreshold_tables (w : WireNets) :
    4 * (MainNetParams w).RuleChangeActivationThreshold =
      3 * (MainNetParams w).MinerConfirmationWindow ∧
    4 * (RegressionNetParams w).RuleChangeActivationThreshold =
      3 * (RegressionNetParams w).MinerConfirmationWindow ∧
    4 * (SimNetParams w).RuleChangeActivationThreshold =
      3 * (SimNetParams w).MinerConfirmationWindow ∧
    (TestNet4Params w).RuleChangeActivationThreshold = 15 ∧
    (TestNet4Params w).MinerConfirmationWindow = 15 ∧
    4 * (TestNet4Params w).RuleChangeActivationThreshold ≠
      3 * (TestNet4Params w).MinerConfirmationWindow := by
  refine ⟨rfl, rfl, rfl, rfl, rfl, ?_⟩
  show 4 * 15 ≠ 3 * 15
  decide

/-- C23: for each of the four default tables, the compact encoding of
`PowLimit` is `PowLimitBits`: `2^236 - 1` encodes to `0x1e0fffff = 504365055`
(main and testnet4) and `2^255 - 1` to `0x207fffff` (regression and simnet). -/
theorem PowLimitBits_compact (w : WireNets) :
    (MainNetParams w).PowLimit = 2 ^ 236 - 1 ∧
    (TestNet4Params w).PowLimit = 2 ^ 236 - 1 ∧
    (RegressionNetParams w).PowLimit = 2 ^ 255 - 1 ∧
    (SimNetParams w).PowLimit = 2 ^ 255 - 1 ∧
    (MainNetParams w).PowLimitBits = 504365055 ∧
    (0x1e0fffff : Nat) = 504365055 ∧
    BigToCompact (MainNetParams w).PowLimit = (MainNetParams w).PowLimitBits ∧
    BigToCompact (TestNet4Params w).PowLimit = (TestNet4Params w).PowLimitBits ∧
    BigToCompact (RegressionNetParams w).PowLimit = (RegressionNetParams w).PowLimitBits ∧
    BigToCompact (SimNetParams w).PowLimit = (SimNetParams w).PowLimitBits ∧
    (RegressionNetParams w).PowLimitBits = 0x207fffff ∧
    (SimNetParams w).PowLimitBits = 0x207fffff := by
  have e1 : (MainNetParams w).PowLimit = mainPowLimit := rfl
  have e2 : (TestNet4Params w).PowLimit = testNet4PowLimit := rfl
  have e3 : (RegressionNetParams w).PowLimit = regressionPowLimit := rfl
  have e4 : (SimNetParams w).PowLimit = simNetPowLimit := rfl
  have b1 : (MainNetParams w).PowLimitBits = 504365055 := rfl
  have b2 : (TestNet4Params w).PowLimitBits = 504365055 := rfl
  have b3 : (RegressionNetParams w).PowLimitBits = 0x207fffff := rfl
  have b4 : (SimNetParams w).PowLimitBits = 0x207fffff := rfl
  rw [e1, e2, e3, e4, b1, b2, b3, b4]
  refine ⟨?_, ?_, ?_, ?_, rfl, ?_, ?_, ?_, ?_, ?_, rfl, rfl⟩ <;> decide

/-- C24: `Register` reads six fields only.  Two parameter sets that agree on
`Net`, `PubKeyHashAddrID`, `ScriptHashAddrID`, `Bech32HRPSegwit`,
`HDPrivateKeyID` and `HDPublicKeyID` get the same result and leave the same
state; after any run from the empty registry a byte accepted by
`IsPubKeyHashAddrID` (`IsScriptHashAddrID`) is the `PubKeyHashAddrID`
(`ScriptHashAddrID`) of an accepted call; and after `init` the witness ids
`0x06` and `0x0A` of the main network are accepted by neither query. -/
theorem Register_six_fields (s : Registry) (p q : Params)
    (hnet : p.Net = q.Net) (hpk : p.PubKeyHashAddrID = q.PubKeyHashAddrID)
    (hsh : p.ScriptHashAddrID = q.ScriptHashAddrID)
    (hhrp : p.Bech32HRPSegwit = q.Bech32HRPSegwit)
    (hprv : p.HDPrivateKeyID = q.HDPrivateKeyID) (hpub : p.HDPublicKeyID = q.HDPublicKeyID) :
    Register s p = Register s q ∧
    (∀ (ps : List Params) (b : Byte),
      IsPubKeyHashAddrID (registerAll Registry.empty ps).2 b = true →
      ∃ r, (r, none) ∈ (registerAll Registry.empty ps).1 ∧ r.PubKeyHashAddrID = b) ∧
    (∀ (ps : List Params) (b : Byte),
      IsScriptHashAddrID (registerAll Registry.empty ps).2 b = true →
      ∃ r, (r, none) ∈ (registerAll Registry.empty ps).1 ∧ r.ScriptHashAddrID = b) ∧
    (∀ w : WireNets, (init w).1 = none →
      (MainNetParams w).WitnessPubKeyHashAddrID = 0x06 ∧
      (MainNetParams w).WitnessScriptHashAddrID = 0x0A ∧
      IsPubKeyHashAddrID (init w).2 0x06 = false ∧
      IsScriptHashAddrID (init w).2 0x0A = false ∧
      IsPubKeyHashAddrID (init w).2 0x0A = false ∧
      IsScriptHashAddrID (init w).2 0x06 = false ∧
      IsPubKeyHashAddrID (init w).2 (MainNetParams w).PrivateKeyID = false ∧
      IsScriptHashAddrID (init w).2 (MainNetParams w).PrivateKeyID = false) := by
  refine ⟨?_, ?_, ?_, ?_⟩
  · unfold Register
    rw [hnet, hpk, hsh, hhrp, hprv, hpub]
  · intro ps b hb
    unfold IsPubKeyHashAddrID at hb
    rw [decide_eq_true_iff, mem_pubKeyHashAddrIDs_registerAll] at hb
    rcases hb with hb | hb
    · simp [Registry.empty] at hb
    · exact hb
  · intro ps b hb
    unfold IsScriptHashAddrID at hb
    rw [decide_eq_true_iff, mem_scriptHashAddrIDs_registerAll] at hb
    rcases hb with hb | hb
    · simp [Registry.empty] at hb
    · exact hb
  · intro w hinit
    have h := (init_fst_eq_none_iff w).mp hinit
    have hstate := init_snd_of_distinct w h
    have hpkset : (init w).2.pubKeyHashAddrIDs =
        insert 0x3f (insert 0x6f (insert 0x6f (insert 0x32 ∅))) := by rw [hstate]
    have hshset : (init w).2.scriptHashAddrIDs =
        insert 0x7b (insert 0xc4 (insert 0xc4 (insert 0x30 ∅))) := by rw [hstate]
    have hpriv : (MainNetParams w).PrivateKeyID = 0xEF := rfl
    rw [hpriv]
    simp only [IsPubKeyHashAddrID, IsScriptHashAddrID, hpkset, hshset]
    refine ⟨rfl, rfl, ?_, ?_, ?_, ?_, ?_, ?_⟩ <;> decide

/-- C24, at a concrete input: the main table and a copy of it with other
witness ids, private key id, name and proof-of-work constants. -/
theorem Register_six_fields_witness :
    Register Registry.empty (MainNetParams sampleWire) =
      Register Registry.empty
        { MainNetParams sampleWire with
          Name := "other"
          PowLimit := 1
          PowLimitBits := 2
          PrivateKeyID := 0x32
          WitnessPubKeyHashAddrID := 0x32
          WitnessScriptHashAddrID := 0x30 } :=
  (Register_six_fields Registry.empty (MainNetParams sampleWire)
    { MainNetParams sampleWire with
      Name := "other"
      PowLimit := 1
      PowLimitBits := 2
      PrivateKeyID := 0x32
      WitnessPubKeyHashAddrID := 0x32
      WitnessScriptHashAddrID := 0x30 } rfl rfl rfl rfl rfl rfl).1

end chaincfg
